import Mathlib

/-!
Verification of the Streaming Completion Controller of Geminid-Desk.

Shallow embedding of `src/chat_completion.rs` (History Builder / Attachment
Resolver) and `src/chat.rs` (Request Executor, Conversation Assembler).
Rust machine values are modelled as: `String` for strings and paths,
`Int` for time instants (`time::OffsetDateTime`), `Nat` for monotonic
instants (`std::time::Instant`) and for opaque identifiers
(`GeminiModel`, `UsageMetadata`).  External effects (the network helper
`convert_file_to_part`, the backend stream) are passed in as explicit
function/trace parameters; progress events sent over the flower channel
are collected into an explicit list.
-/

namespace Geminid

/-- `gemini_rust::Role` (chat_completion.rs uses `Role::User` / `Role::Model`). -/
inductive Role
  | User
  | Model
  deriving DecidableEq, Repr

/-- `MessageRole` from chat.rs (lines 51-55). -/
inductive MessageRole
  | User
  | Assistant
  deriving DecidableEq, Repr

/-- `gemini_rust::File`: the remote file handle carried by an uploaded
attachment.  Only the fields read by `process_attachments` are modelled
(`expiration_time`, `uri`, `mime_type`); an instant is an `Int`. -/
structure RemoteFile where
  expiration_time : Option Int
  uri : Option String
  mime_type : Option String
  deriving DecidableEq, Repr

/-- Modelled from the spec: `AttachmentState` lives in `src/file_handler.rs`,
which is not part of the provided sources.  The spec's data model gives
`state ∈ {Pending, Uploading, Uploaded(remote_handle), Failed}`, and
chat.rs / chat_completion.rs pattern-match on `Uploading` and
`Uploaded(remote_file)`. -/
inductive AttachmentState
  | Pending
  | Uploading
  | Uploaded (file : RemoteFile)
  | Failed
  deriving DecidableEq, Repr

/-- Modelled from the spec: `Attachment` (from `src/file_handler.rs`, absent
from the sources) carries a `path` and a `state`; those are the only two
fields the provided code reads. -/
structure Attachment where
  path : String
  state : AttachmentState
  deriving DecidableEq, Repr

/-- `gemini_rust::Part`: the code only distinguishes `Part::Text` (with its
`thought` flag) and `Part::FileData`; every other variant falls into the
catch-all arm `_ => {}` of the assembler and is modelled as `Other`.
`thought_signature` is never read and is omitted. -/
inductive Part
  | Text (text : String) (thought : Option Bool)
  | FileData (file_uri : String) (mime_type : String)
  | Other
  deriving DecidableEq, Repr

/-- `gemini_rust::Content` exactly as constructed by `build_history`. -/
structure Content where
  parts : Option (List Part)
  role : Option Role
  deriving DecidableEq, Repr

/-- `Message` from chat.rs (lines 57-80).  UI-only fields that no claimed
code path reads (`time`, `clicked_copy`, `is_speaking`, `is_prepending`)
are omitted; `model` and `usage` are opaque and modelled as `Nat`. -/
structure Message where
  model : Nat
  content : String
  role : MessageRole
  is_generating : Bool
  requested_at : Nat
  generation_time : Option Nat
  is_error : Bool
  files : List Attachment
  is_thought : Bool
  usage : Option Nat
  status_message : Option String
  deriving DecidableEq, Repr

/-- `Message::assistant` (chat.rs lines 158-167): all other fields come from
`Default::default()`; `requested_at` is `Instant::now()`, passed as `now`. -/
def Message.assistant (content : String) (model : Nat) (now : Nat) : Message :=
  { model := model
    content := content
    role := MessageRole.Assistant
    is_generating := true
    requested_at := now
    generation_time := none
    is_error := false
    files := []
    is_thought := false
    usage := none
    status_message := none }

/-- `ChatProgress` from chat.rs (lines 443-457); `PathBuf` is a `String`. -/
inductive ChatProgress
  | Part (part : Part)
  | Status (message : String)
  | FileUploading (path : String)
  | FileUploaded (path : String) (file : RemoteFile)
  deriving DecidableEq, Repr

/-- The uploaded-file handle returned by `convert_file_to_part`:
`get_file_meta()` yields the remote file metadata, and
`FileData::try_from(&handle)` either succeeds with a `(uri, mime)` pair or
fails (modelled as `Option`). -/
structure FileHandle where
  file_meta : RemoteFile
  file_data : Option (String × String)
  deriving DecidableEq, Repr

/-- Modelled from the spec: `FileResult` from `src/file_handler.rs` (absent
from the sources); the spec's conversion-helper interface is
`convert(path, allow_upload) -> InlinePart | UploadedFile{remote_handle}`,
matching the two `Ok` patterns in `process_attachments`. -/
inductive FileResult
  | InlinePart (part : Part)
  | UploadedFile (handle : FileHandle)
  deriving DecidableEq, Repr

/-- The external conversion/upload helper `convert_file_to_part`, passed as
a parameter: given the file path and the effective upload flag, it fails
or returns a `FileResult`. -/
abbrev ConvertFn := String → Bool → Except String FileResult

/-- The result of running the attachment loop: the parts appended to the
buffer, the progress events sent over the channel (in send order, keyed by
message index), and the calls made to the conversion/upload helper (path
together with the upload flag passed to the helper). -/
structure AttachResult where
  parts : List Part
  events : List (Nat × ChatProgress)
  calls : List (String × Bool)
  deriving DecidableEq, Repr

/-- The reuse check at the top of the `process_attachments` loop body
(chat_completion.rs lines 127-145): an `Uploaded` attachment whose handle
is unexpired and carries a URI yields a `FileData` part directly and the
loop `continue`s. -/
def attachment_reuse (now : Int) (attachment : Attachment) : Option Part :=
  match attachment.state with
  | AttachmentState.Uploaded remote_file =>
    let is_expired :=
      match remote_file.expiration_time with
      | some exp => exp < now
      | none => false
    if !is_expired then
      match remote_file.uri with
      | some uri => some (Part.FileData uri (remote_file.mime_type.getD ""))
      | none => none
    else none
  | _ => none

/-- The status events sent before calling the helper (chat_completion.rs
lines 147-163): a `Status` to the status index, then - when uploading is
allowed - a `FileUploading` to the index of the message owning the file. -/
def attachment_status_events (status_channel : Option Nat) (allow_upload : Bool)
    (file_msg_index : Nat) (attachment : Attachment) : List (Nat × ChatProgress) :=
  match status_channel with
  | some status_idx =>
    (status_idx, ChatProgress.Status ("Processing file: " ++ attachment.path ++ "...")) ::
      (if allow_upload then [(file_msg_index, ChatProgress.FileUploading attachment.path)]
       else [])
  | none => []

/-- One iteration of the `for attachment in files` loop of
`process_attachments` (chat_completion.rs lines 120-187). -/
def process_one (convert : ConvertFn) (now : Int) (allow_upload : Bool)
    (status_channel : Option Nat) (file_msg_index : Nat)
    (attachment : Attachment) : AttachResult :=
  match attachment_reuse now attachment with
  | some part => ⟨[part], [], []⟩
  | none =>
    let statusEvents := attachment_status_events status_channel allow_upload
      file_msg_index attachment
    -- If status_channel is None (e.g. counting), force inline (upload=false)
    let effective_upload := allow_upload && status_channel.isSome
    match convert attachment.path effective_upload with
    | Except.ok (FileResult.InlinePart part) =>
      ⟨[part], statusEvents, [(attachment.path, effective_upload)]⟩
    | Except.ok (FileResult.UploadedFile handle) =>
      let upEvents :=
        match status_channel with
        | some _ => [(file_msg_index, ChatProgress.FileUploaded attachment.path handle.file_meta)]
        | none => []
      let parts :=
        match handle.file_data with
        | some (uri, mime) => [Part.FileData uri mime]
        | none => []
      ⟨parts, statusEvents ++ upEvents, [(attachment.path, effective_upload)]⟩
    | Except.error _ =>
      -- the error is logged and the attachment contributes nothing
      ⟨[], statusEvents, [(attachment.path, effective_upload)]⟩

/-- `process_attachments` (chat_completion.rs lines 112-188): runs the loop
body over every attachment and concatenates the appended parts, the sent
events and the helper calls in order. -/
def process_attachments (convert : ConvertFn) (now : Int) (files : List Attachment)
    (allow_upload : Bool) (status_channel : Option Nat) (file_msg_index : Nat) :
    AttachResult :=
  match files with
  | [] => ⟨[], [], []⟩
  | a :: rest =>
    let r := process_one convert now allow_upload status_channel file_msg_index a
    let r2 := process_attachments convert now rest allow_upload status_channel file_msg_index
    ⟨r.parts ++ r2.parts, r.events ++ r2.events, r.calls ++ r2.calls⟩

/-- `Role` assigned to a message (chat_completion.rs lines 23-26). -/
def roleOf : MessageRole → Role
  | MessageRole.User => Role.User
  | MessageRole.Assistant => Role.Model

/-- The skip condition of the main loop of `build_history`
(chat_completion.rs line 19). -/
def skip_message (m : Message) : Bool :=
  m.is_thought || (m.content.isEmpty && m.files.isEmpty)

/-- The mutable state of the `build_history` main loop: the completed
blocks, the pending parts accumulator, the active role, plus the
instrumentation (events sent, helper calls made). -/
structure BuildState where
  history : List Content
  parts_buffer : List Part
  active_role : Option Role
  events : List (Nat × ChatProgress)
  calls : List (String × Bool)

/-- One iteration of the main `for (msg_idx, message)` loop of
`build_history` (chat_completion.rs lines 18-59). -/
def build_step (convert : ConvertFn) (now : Int) (public_file_upload : Bool)
    (status_channel : Option Nat) (msg_idx : Nat) (message : Message)
    (st : BuildState) : BuildState :=
  if skip_message message then st
  else
    let message_role := roleOf message.role
    let st1 :=
      match st.active_role with
      | some current_role =>
        if current_role ≠ message_role then
          if st.parts_buffer ≠ [] then
            { st with
              history := st.history ++ [(⟨some st.parts_buffer, some current_role⟩ : Content)]
              parts_buffer := []
              active_role := some message_role }
          else { st with active_role := some message_role }
        else st
      | none => { st with active_role := some message_role }
    let ar := process_attachments convert now message.files public_file_upload
      status_channel msg_idx
    let st2 :=
      { st1 with
        parts_buffer := st1.parts_buffer ++ ar.parts
        events := st1.events ++ ar.events
        calls := st1.calls ++ ar.calls }
    if message.content ≠ "" then
      { st2 with parts_buffer := st2.parts_buffer ++ [Part.Text message.content none] }
    else st2

/-- The main loop of `build_history`, threading the enumeration index. -/
def build_loop (convert : ConvertFn) (now : Int) (public_file_upload : Bool)
    (status_channel : Option Nat) : Nat → List Message → BuildState → BuildState
  | _, [], st => st
  | i, m :: rest, st =>
    build_loop convert now public_file_upload status_channel (i + 1) rest
      (build_step convert now public_file_upload status_channel i m st)

/-- The value returned by `build_history` together with its observable
side effects. -/
structure BuildResult where
  history : List Content
  events : List (Nat × ChatProgress)
  calls : List (String × Bool)
  deriving DecidableEq, Repr

/-- `build_history` (chat_completion.rs lines 6-110).  The Rust function
returns `anyhow::Result<Vec<Content>>` but contains no fallible operation
of its own (attachment failures are swallowed inside
`process_attachments`), so the `Except` it returns is always `ok`. -/
def build_history (convert : ConvertFn) (now : Int) (messages : List Message)
    (extra_content : Option (String × List Attachment))
    (public_file_upload : Bool) (status_channel : Option Nat) :
    Except String BuildResult :=
  let st := build_loop convert now public_file_upload status_channel 0 messages
    ⟨[], [], none, [], []⟩
  -- final flush (lines 61-68)
  let history :=
    if st.parts_buffer ≠ [] then
      match st.active_role with
      | some role => st.history ++ [(⟨some st.parts_buffer, some role⟩ : Content)]
      | none => st.history
    else st.history
  -- extra content (lines 70-97): upload disabled, no status channel
  let step2 :=
    match extra_content with
    | some (text, files) =>
      let ar := process_attachments convert now files false none 0
      let extra_parts := ar.parts ++ (if text ≠ "" then [Part.Text text none] else [])
      let h :=
        if extra_parts ≠ [] then history ++ [(⟨some extra_parts, some Role.User⟩ : Content)]
        else history
      (h, st.events ++ ar.events, st.calls ++ ar.calls)
    | none => (history, st.events, st.calls)
  -- clear status message (lines 99-107)
  let events :=
    match status_channel with
    | some index => step2.2.1 ++ [(index, ChatProgress.Status "")]
    | none => step2.2.1
  Except.ok ⟨step2.1, events, step2.2.2⟩

/-! ## Conversation Assembler (chat.rs `Chat::poll_flower`, lines 1118-1291) -/

/-- `self.messages.get_mut(idx)`: apply `f` at index `idx`, leave the list
unchanged when the index is out of bounds. -/
def updateAt : List α → Nat → (α → α) → List α
  | [], _, _ => []
  | a :: rest, 0, f => f a :: rest
  | a :: rest, n + 1, f => a :: updateAt rest n f

/-- `self.messages.last_mut()`: apply `f` to the last element, if any. -/
def updateLast (f : α → α) : List α → List α
  | [] => []
  | [a] => [f a]
  | a :: b :: rest => a :: updateLast f (b :: rest)

/-- `msg.files.iter_mut().find(|a| a.path == path)`: update the state of the
first attachment with the given path. -/
def setFirst : List Attachment → String → AttachmentState → List Attachment
  | [], _, _ => []
  | a :: rest, p, s =>
    if a.path = p then { a with state := s } :: rest else a :: setFirst rest p s

/-- The progress-handling closure passed to `extract` in `poll_flower`
(chat.rs lines 1122-1200), applied to one drained `(idx, progress)` pair.
`now` models `Instant::now()` at the moment elapsed times are read, so
`m.requested_at.elapsed()` is `now - m.requested_at`.  The source unwraps
`last_mut()` on the strength of the placeholder pushed by `send_message`;
an empty log is returned unchanged here and never arises in the claims. -/
def apply_progress (now : Nat) (msgs : List Message) (idx : Nat)
    (progress : ChatProgress) : List Message :=
  -- Clear status message when receiving new parts (lines 1126-1130)
  let msgs :=
    match progress with
    | ChatProgress.Part _ => updateAt msgs idx (fun m => { m with status_message := none })
    | _ => msgs
  match progress with
  | ChatProgress.Status message =>
    updateAt msgs idx (fun m => { m with status_message := some message })
  | ChatProgress.FileUploading path =>
    updateAt msgs idx
      (fun m => { m with files := setFirst m.files path AttachmentState.Uploading })
  | ChatProgress.FileUploaded path file =>
    updateAt msgs idx
      (fun m => { m with files := setFirst m.files path (AttachmentState.Uploaded file) })
  | ChatProgress.Part part =>
    match part with
    | Part.Text text thought =>
      match msgs.getLast? with
      | none => msgs
      | some current =>
        if thought.getD false then
          -- a thought: convert the placeholder in place and append the text
          updateLast
            (fun m =>
              let m := if m.is_thought then m else { m with is_thought := true }
              { m with content := m.content ++ text })
            msgs
        else
          if current.is_thought then
            -- thoughts just ended: finalize the thought turn and push a new
            -- answer message with its own spinner
            updateLast
              (fun m =>
                { m with
                  is_generating := false
                  generation_time := some (now - m.requested_at) })
              msgs ++
              [{ Message.assistant text current.model now with is_generating := true }]
          else
            updateLast (fun m => { m with content := m.content ++ text }) msgs
    | _ => msgs

/-! ## Request Executor (chat.rs `request_completion`, lines 513-655, and
`request_completion_code_assist`, lines 657-768)

The backend stream is modelled as a trace: a list of inputs the
`tokio::select!` loop reacts to.  `setFlag` is the user setting the shared
`stop_generating` flag, with the cancellation poll observing it before the
next stream item arrives (the poll runs every 100 ms); `item`/`itemErr`
are `Some(Ok(_))`/`Some(Err(_))` from `stream.next()`; the end of the
trace is `None` (stream exhausted).  The spawner in `spawn_completion`
(chat.rs lines 950-1011) turns an `Err` return of the executor into
`handle.error((index, e))`, so an error return is modelled directly as a
`failure` terminal. -/

/-- `candidate.content.parts` of one response chunk. -/
structure Candidate where
  parts : Option (List Part)
  deriving DecidableEq, Repr

/-- A (streamed or blocking) generation response: the optional usage
summary and the candidate list. -/
structure GenResponse where
  usage_metadata : Option Nat
  candidates : List Candidate
  deriving DecidableEq, Repr

/-- One observable input to the streaming select loop. -/
inductive StreamInput
  | setFlag
  | item (res : GenResponse)
  | itemErr (e : String)
  deriving DecidableEq, Repr

/-- The terminal outcome reported through the flower channel. -/
inductive Terminal
  | success (idx : Nat) (text : String) (usage : Option Nat)
  | failure (idx : Nat) (error : String)
  deriving DecidableEq, Repr

/-- The result of one executor invocation: the terminal outcome, the final
value of the shared `stop_generating` flag, whether a cancellation
observation ended the run, and the progress events sent. -/
structure ExecResult where
  terminal : Terminal
  flag : Bool
  cancelled : Bool
  sent : List (Nat × ChatProgress)
  deriving DecidableEq, Repr

/-- The `check_cancellation` closure (chat.rs lines 552-561 and 695-704):
when the shared flag is observed set, it is stored back `false` and the
poll resolves (`some` new flag value); otherwise the poll keeps sleeping
(`none`). -/
def check_cancellation (stop_generating : Bool) : Option Bool :=
  if stop_generating then some false else none

/-- The inner `for part in parts` of the stream consumer (chat.rs lines
600-608): each part is sent as a progress event, and text parts are
appended to the running accumulator. -/
def emit_parts (idx : Nat) : List Part → String → List (Nat × ChatProgress) →
    String × List (Nat × ChatProgress)
  | [], text, sent => (text, sent)
  | p :: rest, text, sent =>
    let sent := sent ++ [(idx, ChatProgress.Part p)]
    let text :=
      match p with
      | Part.Text t _ => text ++ t
      | _ => text
    emit_parts idx rest text sent

/-- Handling of one `Some(Ok(res))` stream chunk (chat.rs lines 591-610):
capture usage metadata if present, then process the first candidate's
parts. -/
def process_chunk (idx : Nat) (res : GenResponse) (text : String)
    (usage : Option Nat) (sent : List (Nat × ChatProgress)) :
    String × Option Nat × List (Nat × ChatProgress) :=
  let usage :=
    match res.usage_metadata with
    | some u => some u
    | none => usage
  match res.candidates.head? with
  | some candidate =>
    match candidate.parts with
    | some parts =>
      let r := emit_parts idx parts text sent
      (r.1, usage, r.2)
    | none => (text, usage, sent)
  | none => (text, usage, sent)

/-- The stream-consumption loop (chat.rs lines 583-617 / 711-739): each
iteration races the cancellation poll against `stream.next()`. -/
def consume_stream (idx : Nat) :
    Bool → String → Option Nat → List (Nat × ChatProgress) → List StreamInput →
    ExecResult
  | flag, text, usage, sent, inputs =>
    match check_cancellation flag with
    | some flag' =>
      -- cancellation observed: break, then handle.success with partial text
      ⟨Terminal.success idx text usage, flag', true, sent⟩
    | none =>
      match inputs with
      | [] =>
        -- stream exhausted (None): handle.success
        ⟨Terminal.success idx text usage, flag, false, sent⟩
      | StreamInput.setFlag :: rest => consume_stream idx true text usage sent rest
      | StreamInput.item res :: rest =>
        let r := process_chunk idx res text usage sent
        consume_stream idx flag r.1 r.2.1 r.2.2 rest
      | StreamInput.itemErr e :: _ =>
        -- Some(Err(e)) returns Err; the spawner reports it as handle.error
        ⟨Terminal.failure idx e, flag, false, sent⟩

/-- `request_completion`, streaming path (chat.rs lines 564-617): the
stream-open call is raced against the cancellation poll; `open_result`
is the outcome of `execute_stream()` when it wins the race. -/
def request_completion_streaming (idx : Nat) (flag0 : Bool)
    (open_result : Except String Unit) (inputs : List StreamInput) : ExecResult :=
  match check_cancellation flag0 with
  | some flag' => ⟨Terminal.success idx "" none, flag', true, []⟩
  | none =>
    match open_result with
    | Except.error e => ⟨Terminal.failure idx e, flag0, false, []⟩
    | Except.ok _ => consume_stream idx flag0 "" none [] inputs

/-- `request_completion`, non-streaming path (chat.rs lines 618-644): one
blocking call raced against the cancellation poll; `flag0` says whether
the poll observed the flag before the call resolved.  `final_usage` is
assigned directly from the response (line 627). -/
def request_completion_blocking (idx : Nat) (flag0 : Bool)
    (result : Except String GenResponse) : ExecResult :=
  match check_cancellation flag0 with
  | some flag' => ⟨Terminal.success idx "" none, flag', true, []⟩
  | none =>
    match result with
    | Except.ok response =>
      let usage := response.usage_metadata
      let pr :=
        match response.candidates.head? with
        | some candidate =>
          match candidate.parts with
          | some parts => emit_parts idx parts "" []
          | none => ("", [])
        | none => ("", [])
      ⟨Terminal.success idx pr.1 usage, flag0, false, pr.2⟩
    | Except.error e => ⟨Terminal.failure idx e, flag0, false, []⟩

/-- `request_completion_code_assist`, streaming path (chat.rs lines
706-739): unlike `request_completion`, the stream-open call
(`generate_content_stream`, line 707) is awaited without a cancellation
race; only the item pulls are raced. -/
def code_assist_streaming (idx : Nat) (flag0 : Bool)
    (open_result : Except String Unit) (inputs : List StreamInput) : ExecResult :=
  match open_result with
  | Except.error e => ⟨Terminal.failure idx e, flag0, false, []⟩
  | Except.ok _ => consume_stream idx flag0 "" none [] inputs

/-- `request_completion_code_assist`, non-streaming path (chat.rs lines
740-764): identical control flow to the non-streaming path of
`request_completion`. -/
def code_assist_blocking (idx : Nat) (flag0 : Bool)
    (result : Except String GenResponse) : ExecResult :=
  request_completion_blocking idx flag0 result

/-- Specification helper: the text carried by a list of parts. -/
def parts_text : List Part → String
  | [] => ""
  | Part.Text t _ :: rest => t ++ parts_text rest
  | _ :: rest => parts_text rest

/-- Specification helper: the text one chunk contributes. -/
def chunk_text (res : GenResponse) : String :=
  match res.candidates.head? with
  | some candidate =>
    match candidate.parts with
    | some parts => parts_text parts
    | none => ""
  | none => ""

/-- Specification helper: the text accumulated over a list of chunks. -/
def chunks_text : List GenResponse → String
  | [] => ""
  | r :: rest => chunk_text r ++ chunks_text rest

/-- Specification helper: the usage summary after a list of chunks,
starting from `u` (last present value wins). -/
def chunks_usage : Option Nat → List GenResponse → Option Nat
  | u, [] => u
  | u, r :: rest =>
    chunks_usage
      (match r.usage_metadata with
       | some x => some x
       | none => u)
      rest

/-! ## JSON (models the external `serde_json` crate)

The error-diagnosis code in `poll_flower` parses the raw error text with
`serde_json::from_str::<serde_json::Value>` and pretty-prints with
`serde_json::to_string_pretty`.  `serde_json` is an external crate, so a
direct JSON model is embedded here: a value type, a strict
recursive-descent parser (whole input must be one JSON value, modulo
surrounding whitespace), and a pretty printer.  Numbers are modelled as
integers (the error payloads carry only integer `code` fields);
`\uXXXX` string escapes are not modelled. -/

inductive Json
  | null
  | bool (b : Bool)
  | num (n : Int)
  | str (s : String)
  | arr (elems : List Json)
  | obj (fields : List (String × Json))
  deriving Repr

/-- Skip JSON whitespace. -/
def skipWs : List Char → List Char
  | [] => []
  | c :: rest =>
    if c = ' ' ∨ c = '\n' ∨ c = '\t' ∨ c = '\r' then skipWs rest else c :: rest

/-- Parse the body of a JSON string (the opening quote already consumed),
returning the decoded characters and the remainder after the closing
quote. -/
def parseStringBody : List Char → Option (List Char × List Char)
  | [] => none
  | '"' :: rest => some ([], rest)
  | '\\' :: e :: rest =>
    (match e with
      | 'n' => some '\n'
      | 't' => some '\t'
      | 'r' => some '\r'
      | '"' => some '"'
      | '\\' => some '\\'
      | '/' => some '/'
      | _ => none).bind fun c =>
      (parseStringBody rest).map fun (p : List Char × List Char) => (c :: p.1, p.2)
  | c :: rest =>
    (parseStringBody rest).map fun (p : List Char × List Char) => (c :: p.1, p.2)

/-- Longest digit run at the front. -/
def parseDigits : List Char → List Char × List Char
  | [] => ([], [])
  | c :: rest =>
    if c.isDigit then
      let p := parseDigits rest
      (c :: p.1, p.2)
    else ([], c :: rest)

/-- Digit run to a natural number. -/
def digitsToNat (ds : List Char) : Nat :=
  ds.foldl (fun acc c => acc * 10 + (c.toNat - 48)) 0

/-- Parse an integer JSON number. -/
def parseNum : List Char → Option (Int × List Char)
  | '-' :: rest =>
    match parseDigits rest with
    | ([], _) => none
    | (ds, rest2) => some (-(digitsToNat ds : Int), rest2)
  | s =>
    match parseDigits s with
    | ([], _) => none
    | (ds, rest2) => some ((digitsToNat ds : Int), rest2)

mutual

/-- Parse one JSON value (fuel-indexed recursive descent). -/
def parseValue : Nat → List Char → Option (Json × List Char)
  | 0, _ => none
  | fuel + 1, input =>
    match skipWs input with
    | 'n' :: 'u' :: 'l' :: 'l' :: rest => some (Json.null, rest)
    | 't' :: 'r' :: 'u' :: 'e' :: rest => some (Json.bool true, rest)
    | 'f' :: 'a' :: 'l' :: 's' :: 'e' :: rest => some (Json.bool false, rest)
    | '"' :: rest =>
      (parseStringBody rest).map fun (p : List Char × List Char) =>
        (Json.str (String.mk p.1), p.2)
    | '[' :: rest => parseElems fuel rest
    | '{' :: rest => parseMembers fuel rest
    | s => (parseNum s).map fun p => (Json.num p.1, p.2)

/-- Parse the inside of an array (after `[`). -/
def parseElems : Nat → List Char → Option (Json × List Char)
  | 0, _ => none
  | fuel + 1, input =>
    match skipWs input with
    | ']' :: rest => some (Json.arr [], rest)
    | s =>
      (parseValue fuel s).bind fun p =>
        (parseElemsRest fuel p.2).map fun q => (Json.arr (p.1 :: q.1), q.2)

/-- Parse `, value`* `]`. -/
def parseElemsRest : Nat → List Char → Option (List Json × List Char)
  | 0, _ => none
  | fuel + 1, input =>
    match skipWs input with
    | ']' :: rest => some ([], rest)
    | ',' :: rest =>
      (parseValue fuel rest).bind fun p =>
        (parseElemsRest fuel p.2).map fun q => (p.1 :: q.1, q.2)
    | _ => none

/-- Parse the inside of an object (after the opening brace). -/
def parseMembers : Nat → List Char → Option (Json × List Char)
  | 0, _ => none
  | fuel + 1, input =>
    match skipWs input with
    | '}' :: rest => some (Json.obj [], rest)
    | '"' :: rest =>
      (parseStringBody rest).bind fun k =>
        match skipWs k.2 with
        | ':' :: rest3 =>
          (parseValue fuel rest3).bind fun p =>
            (parseMembersRest fuel p.2).map fun q =>
              (Json.obj ((String.mk k.1, p.1) :: q.1), q.2)
        | _ => none
    | _ => none

/-- Parse `, "key": value`* and the closing brace. -/
def parseMembersRest : Nat → List Char → Option (List (String × Json) × List Char)
  | 0, _ => none
  | fuel + 1, input =>
    match skipWs input with
    | '}' :: rest => some ([], rest)
    | ',' :: rest =>
      match skipWs rest with
      | '"' :: rest2 =>
        (parseStringBody rest2).bind fun k =>
          match skipWs k.2 with
          | ':' :: rest4 =>
            (parseValue fuel rest4).bind fun p =>
              (parseMembersRest fuel p.2).map fun q =>
                ((String.mk k.1, p.1) :: q.1, q.2)
          | _ => none
      | _ => none
    | _ => none

end

/-- `serde_json::from_str::<serde_json::Value>`: the whole input must be a
single JSON value, with only whitespace around it. -/
def parse_json (s : String) : Option Json :=
  let cs := s.toList
  match parseValue (cs.length + 1) cs with
  | some p => if skipWs p.2 = [] then some p.1 else none
  | none => none

/-- Field lookup in an object, `Value::get(key)`. -/
def lookupField : List (String × Json) → String → Option Json
  | [], _ => none
  | f :: rest, key => if f.1 = key then some f.2 else lookupField rest key

/-- `json.get(key)`. -/
def getField (j : Json) (key : String) : Option Json :=
  match j with
  | Json.obj fields => lookupField fields key
  | _ => none

/-- `Value::as_i64`. -/
def Json.as_i64 : Json → Option Int
  | Json.num n => some n
  | _ => none

/-- `Value::as_str`. -/
def Json.as_str : Json → Option String
  | Json.str s => some s
  | _ => none

/-- Escape a string for JSON output. -/
def escapeJsonString (s : String) : String :=
  String.mk
    ((s.toList.map fun c =>
      if c = '"' then ['\\', '"']
      else if c = '\\' then ['\\', '\\']
      else if c = '\n' then ['\\', 'n']
      else if c = '\t' then ['\\', 't']
      else if c = '\r' then ['\\', 'r']
      else [c]).flatten)

/-- `n` spaces of indentation. -/
def nSpaces : Nat → String
  | 0 => ""
  | n + 1 => nSpaces n ++ " "

mutual

/-- Pretty printer, models `serde_json::to_string_pretty` (2-space
indentation); fuel-indexed over the nested value structure. -/
def prettyJson : Nat → Nat → Json → String
  | 0, _, _ => ""
  | _ + 1, _, Json.null => "null"
  | _ + 1, _, Json.bool true => "true"
  | _ + 1, _, Json.bool false => "false"
  | _ + 1, _, Json.num n => toString n
  | _ + 1, _, Json.str s => "\"" ++ escapeJsonString s ++ "\""
  | _ + 1, _, Json.arr [] => "[]"
  | fuel + 1, indent, Json.arr (x :: xs) =>
    "[\n" ++ prettyItems fuel (indent + 2) x xs ++ "\n" ++ nSpaces indent ++ "]"
  | _ + 1, _, Json.obj [] => "\x7b\x7d"
  | fuel + 1, indent, Json.obj (f :: fs) =>
    "\x7b\n" ++ prettyFields fuel (indent + 2) f fs ++ "\n" ++ nSpaces indent ++ "\x7d"

/-- Pretty-print array items. -/
def prettyItems : Nat → Nat → Json → List Json → String
  | 0, _, _, _ => ""
  | fuel + 1, indent, x, [] => nSpaces indent ++ prettyJson fuel indent x
  | fuel + 1, indent, x, y :: ys =>
    nSpaces indent ++ prettyJson fuel indent x ++ ",\n" ++ prettyItems fuel indent y ys

/-- Pretty-print object fields. -/
def prettyFields : Nat → Nat → (String × Json) → List (String × Json) → String
  | 0, _, _, _ => ""
  | fuel + 1, indent, f, [] =>
    nSpaces indent ++ "\"" ++ escapeJsonString f.1 ++ "\": " ++ prettyJson fuel indent f.2
  | fuel + 1, indent, f, g :: gs =>
    nSpaces indent ++ "\"" ++ escapeJsonString f.1 ++ "\": " ++ prettyJson fuel indent f.2 ++
      ",\n" ++ prettyFields fuel indent g gs

end

/-- Pretty-print a JSON value from the top.  `fuel` must exceed the node
count of the value; callers pass a bound derived from the length of the
text the value was parsed from (every JSON node consumes at least one
input character). -/
def pretty_top (fuel : Nat) (j : Json) : String :=
  prettyJson fuel 0 j

/-! ## Error diagnosis (chat.rs `poll_flower` finalize closure, lines
1201-1290)

Rust string byte indices are modelled as character indices; the slice
boundaries used by the code sit on the one-byte characters `{`, `}` and
the ASCII pattern `"retry in "`, so the two indexings cut the text at the
same places. -/

/-- `str::find(char)`: index of the first occurrence. -/
def findCharAux : List Char → Char → Nat → Option Nat
  | [], _, _ => none
  | c :: rest, target, i =>
    if c = target then some i else findCharAux rest target (i + 1)

/-- `msg.find('\x7b')` etc. -/
def findChar (s : List Char) (c : Char) : Option Nat :=
  findCharAux s c 0

/-- `str::rfind(char)`: index of the last occurrence. -/
def rfindChar : List Char → Char → Option Nat
  | [], _ => none
  | c' :: rest, c =>
    match rfindChar rest c with
    | some i => some (i + 1)
    | none => if c' = c then some 0 else none

/-- `str::replace`: replace every (non-overlapping, left-to-right)
occurrence of `pat`; fuel-driven, `fuel = s.length` always suffices. -/
def replaceFrom : Nat → List Char → List Char → List Char → List Char
  | 0, s, _, _ => s
  | fuel + 1, s, pat, rep =>
    match s with
    | [] => []
    | c :: rest =>
      if pat.isPrefixOf s ∧ pat ≠ [] then
        rep ++ replaceFrom fuel (s.drop pat.length) pat rep
      else c :: replaceFrom fuel rest pat rep

/-- `s.replace(pat, rep)`. -/
def replaceList (s pat rep : List Char) : List Char :=
  replaceFrom s.length s pat rep

/-- `str::find(&str)`: index of the first occurrence of a substring. -/
def findSub (s pat : List Char) : Option Nat :=
  if pat.isPrefixOf s then some 0
  else
    match s with
    | [] => none
    | _ :: rest => (findSub rest pat).map fun i => i + 1

/-- `s.contains(pat)` as a Bool on strings. -/
def containsSub (s pat : String) : Bool :=
  (findSub s.toList pat.toList).isSome

/-- The unescaping applied to the brace-delimited candidate (chat.rs line
1221): `replace("\\\"", "\"").replace("\\n", "\n")`. -/
def unescape_candidate (s : List Char) : List Char :=
  replaceList (replaceList s ['\\', '"'] ['"']) ['\\', 'n'] ['\n']

/-- The `RESOURCE_EXHAUSTED` template (chat.rs lines 1235-1246), including
the optional retry suggestion extracted from the error message. -/
def quota_exhausted_text (message : String) : String :=
  let retry_info :=
    match findSub message.toList "retry in ".toList with
    | some pos => "\n\n⏳ **Suggestion:** " ++ String.mk (message.toList.drop pos)
    | none => ""
  "🛑 **Quota Exhausted (429)**\n\nYou've hit the Gemini API rate limit. Please wait a bit or check your Google AI Studio quota." ++ retry_info

/-- The status-to-template mapping (chat.rs lines 1234-1256). -/
def status_text (code : Int) (status message : String) : String :=
  match status with
  | "RESOURCE_EXHAUSTED" => quota_exhausted_text message
  | "NOT_FOUND" =>
    "🚫 **Model Not Found (404)**\n\nThe model you selected is either not found or not supported for this operation. Try choosing a different model.\n\n**Details:** " ++ message
  | "PERMISSION_DENIED" =>
    "🔒 **Permission Denied (403)**\n\nCheck your API Key and project permissions. Make sure the Key is valid for the selected region.\n\n**Details:** " ++ message
  | "INVALID_ARGUMENT" =>
    "❌ **Invalid Request (400)**\n\nSomething is wrong with the request parameters.\n\n**Details:** " ++ message
  | _ =>
    "❗ **Gemini API Error (" ++ toString code ++ ")**\n\n**Status:** " ++ status ++
      "\n**Message:** " ++ message

/-- The brace-delimited JSON candidate (chat.rs lines 1216-1219): from the
first opening brace through the last closing brace (or to the end when no
closing brace follows). -/
def extract_candidate (msg : String) : Option (List Char) :=
  match findChar msg.toList '{' with
  | none => none
  | some start_idx =>
    let json_candidate := msg.toList.drop start_idx
    let end_idx :=
      match rfindChar json_candidate '}' with
      | some i => i + 1
      | none => json_candidate.length
    some (json_candidate.take end_idx)

/-- The JSON value the diagnosis works on (chat.rs lines 1221-1228): the
candidate is parsed literally; if that fails, its unescaped form is
parsed. -/
def parsed_target (msg : String) : Option Json :=
  match extract_candidate msg with
  | none => none
  | some json_str =>
    if (parse_json (String.mk json_str)).isSome then parse_json (String.mk json_str)
    else parse_json (String.mk (unescape_candidate json_str))

/-- The "Robust answer extraction" of the finalize closure (chat.rs lines
1215-1265): structured errors are mapped to templated text, unrecognized
structured errors are pretty-printed, anything else is shown verbatim. -/
def diagnose (msg : String) : String :=
  match extract_candidate msg with
  | none => msg
  | some _ =>
    match parsed_target msg with
    | none => msg
    | some json =>
      match getField json "error" with
      | some err_obj =>
        let code := (Option.bind (getField err_obj "code") Json.as_i64).getD 0
        let status := (Option.bind (getField err_obj "status") Json.as_str).getD "UNKNOWN"
        let message :=
          (Option.bind (getField err_obj "message") Json.as_str).getD "No message"
        status_text code status message
      | none => pretty_top (msg.toList.length + 1) json

/-! ## Terminal handling and the post-drain guard (chat.rs lines
1201-1290) -/

/-- The terminal outcome delivered by the flower's `finalize`: `ok` is a
`Success`, `suppose` an explicit `handle.error`, `panicked` an abnormal
task termination (`Compact::Panicked`). -/
inductive FlowerResult
  | ok (idx : Nat) (text : String) (usage : Option Nat)
  | panicked (e : String)
  | suppose (idx : Nat) (e : String)
  deriving DecidableEq, Repr

/-- The finalize closure of `poll_flower` (chat.rs lines 1201-1281), minus
the modal dialog (pure UI). -/
def finalize_result (now : Nat) (msgs : List Message) : FlowerResult → List Message
  | FlowerResult.ok idx _ usage =>
    updateAt msgs idx fun m => { m with usage := usage, status_message := none }
  | e =>
    let p :=
      match e with
      | FlowerResult.panicked err => (msgs.length - 1, "Tokio task panicked: " ++ err)
      | FlowerResult.suppose idx err => (idx, err)
      | FlowerResult.ok idx _ _ => (idx, "")
    let final_msg := diagnose p.2
    updateAt msgs p.1 fun m =>
      { m with
        content := final_msg
        is_error := true
        is_generating := false
        generation_time := some (now - m.requested_at)
        status_message := none }

/-- The unconditional post-drain guard (chat.rs lines 1283-1289): if the
trailing turn is still generating, stop its timer and clear its status. -/
def post_drain (now : Nat) (msgs : List Message) : List Message :=
  updateLast
    (fun m =>
      if m.is_generating then
        { m with
          is_generating := false
          generation_time := some (now - m.requested_at)
          status_message := none }
      else m)
    msgs

/-- The terminal phase of one `poll_flower` drain: the finalize closure
followed by the post-drain guard. -/
def poll_finalize (now : Nat) (msgs : List Message) (result : FlowerResult) :
    List Message :=
  post_drain now (finalize_result now msgs result)

/-! ## Specification-side helpers for the merging invariant (C1) -/

/-- The parts one kept message contributes to the pending accumulator:
its resolved attachments followed by its text part (chat_completion.rs
lines 42-58).  The parts produced by `process_attachments` do not depend
on the message index (only the emitted events do), so index 0 is used. -/
def msg_parts (convert : ConvertFn) (now : Int) (public_file_upload : Bool)
    (status_channel : Option Nat) (m : Message) : List Part :=
  (process_attachments convert now m.files public_file_upload status_channel 0).parts ++
    (if m.content ≠ "" then [Part.Text m.content none] else [])

/-- Merge adjacent runs with equal roles. -/
def mergeRuns : List (Role × List Part) → List (Role × List Part)
  | [] => []
  | (r, ps) :: rest =>
    match mergeRuns rest with
    | [] => [(r, ps)]
    | (r2, ps2) :: tail =>
      if r = r2 then (r, ps ++ ps2) :: tail else (r, ps) :: (r2, ps2) :: tail

/-- The (role, parts) sequence of the kept (non-skipped) messages. -/
def runs_of (convert : ConvertFn) (now : Int) (public_file_upload : Bool)
    (status_channel : Option Nat) (messages : List Message) :
    List (Role × List Part) :=
  (messages.filter fun m => !skip_message m).map fun m =>
    (roleOf m.role, msg_parts convert now public_file_upload status_channel m)

/-- Closing a build state: the final flush of `build_history`
(chat_completion.rs lines 61-68) applied to the loop's end state. -/
def close_state (st : BuildState) : List Content :=
  if st.parts_buffer ≠ [] then
    match st.active_role with
    | some role => st.history ++ [(⟨some st.parts_buffer, some role⟩ : Content)]
    | none => st.history
  else st.history

/-- A merged run as a wire content block. -/
def run_block (p : Role × List Part) : Content :=
  ⟨some p.2, some p.1⟩

/-- The concrete placeholder used by the C2 witness. -/
def c2_placeholder : Message :=
  { model := 1, content := "", role := MessageRole.Assistant,
    is_generating := true, requested_at := 2, generation_time := none,
    is_error := false, files := [], is_thought := false, usage := none,
    status_message := none }

/-- The concrete one-turn log used by the C6 witness. -/
def c6_log : List Message :=
  [{ model := 1, content := "x", role := MessageRole.Assistant,
     is_generating := true, requested_at := 4, generation_time := none,
     is_error := false, files := [], is_thought := false, usage := none,
     status_message := some "s" }]

/-- Concrete raw error text (escaped-string encoding) for the C5 witness. -/
def c5_raw : String :=
  "boom \x7b\\\"error\\\": \x7b\\\"code\\\": 429, \\\"status\\\": \\\"RESOURCE_EXHAUSTED\\\", \\\"message\\\": \\\"quota; retry in 30s\\\"\x7d\x7d"

/-- The error object embedded in `c5_raw`. -/
def c5_error_obj : Json :=
  Json.obj [("code", Json.num 429), ("status", Json.str "RESOURCE_EXHAUSTED"),
    ("message", Json.str "quota; retry in 30s")]

/-- The JSON value `c5_raw` parses to. -/
def c5_json : Json := Json.obj [("error", c5_error_obj)]

/-- Raw error text with a stray brace pair before the escaped error object
(C5 counterexample). -/
def c5_stray : String :=
  "err \x7b \x7d then \x7b\\\"error\\\": \x7b\\\"status\\\": \\\"RESOURCE_EXHAUSTED\\\"\x7d\x7d"

/-- The escaped JSON error object contained in `c5_stray`. -/
def c5_segment : String :=
  "\x7b\\\"error\\\": \x7b\\\"status\\\": \\\"RESOURCE_EXHAUSTED\\\"\x7d\x7d"

/-- C1 counterexample input: a file-only User turn (empty text, one
attachment) — non-skipped by `skip_message`, since its file list is
non-empty. -/
def c1_file_user (p : String) : Message :=
  { model := 0, content := "", role := MessageRole.User,
    is_generating := false, requested_at := 0, generation_time := none,
    is_error := false, files := [⟨p, AttachmentState.Pending⟩],
    is_thought := false, usage := none, status_message := none }

/-- C1 counterexample input: the Assistant turn with text `"c"`. -/
def c1_a3 : Message :=
  { model := 0, content := "c", role := MessageRole.Assistant,
    is_generating := false, requested_at := 0, generation_time := none,
    is_error := false, files := [], is_thought := false, usage := none,
    status_message := none }

/-- C1 counterexample input: the final User turn with text `"d"`. -/
def c1_u4 : Message :=
  { model := 0, content := "d", role := MessageRole.User,
    is_generating := false, requested_at := 0, generation_time := none,
    is_error := false, files := [], is_thought := false, usage := none,
    status_message := none }

/-! ## Helper lemmas -/

theorem process_attachments_append (cv : ConvertFn) (now : Int) (up : Bool)
    (ch : Option Nat) (i : Nat) (xs ys : List Attachment) :
    process_attachments cv now (xs ++ ys) up ch i =
      ⟨(process_attachments cv now xs up ch i).parts ++
         (process_attachments cv now ys up ch i).parts,
       (process_attachments cv now xs up ch i).events ++
         (process_attachments cv now ys up ch i).events,
       (process_attachments cv now xs up ch i).calls ++
         (process_attachments cv now ys up ch i).calls⟩ := by
  induction xs with
  | nil => rfl
  | cons a rest ih => simp [process_attachments, ih]

theorem ite_append_right (c : Prop) [Decidable c] (H X : List α) :
    (if c then H ++ X else H) = H ++ (if c then X else []) := by
  split <;> simp

theorem attachment_status_events_path (ch : Option Nat) (up : Bool) (i : Nat)
    (a b : Attachment) (h : a.path = b.path) :
    attachment_status_events ch up i a = attachment_status_events ch up i b := by
  cases ch <;> simp [attachment_status_events, h]

theorem process_one_parts_idx (cv : ConvertFn) (now : Int) (up : Bool)
    (ch : Option Nat) (i j : Nat) (a : Attachment) :
    (process_one cv now up ch i a).parts = (process_one cv now up ch j a).parts := by
  simp only [process_one]
  cases hr : attachment_reuse now a with
  | some part => rfl
  | none =>
    simp only
    cases hcv : cv a.path (up && ch.isSome) with
    | error e => simp [hcv]
    | ok fr => cases fr <;> simp [hcv]

theorem process_attachments_parts_idx (cv : ConvertFn) (now : Int) (up : Bool)
    (ch : Option Nat) (files : List Attachment) (i j : Nat) :
    (process_attachments cv now files up ch i).parts =
      (process_attachments cv now files up ch j).parts := by
  induction files with
  | nil => rfl
  | cons a rest ih =>
    simp [process_attachments, ih, process_one_parts_idx cv now up ch i j a]

theorem process_attachments_no_channel (cv : ConvertFn) (now : Int)
    (files : List Attachment) (up : Bool) (i : Nat) :
    (process_attachments cv now files up none i).events = [] ∧
    ∀ c ∈ (process_attachments cv now files up none i).calls, c.2 = false := by
  induction files with
  | nil => simp [process_attachments]
  | cons a rest ih =>
    have hone : (process_one cv now up none i a).events = [] ∧
        ∀ c ∈ (process_one cv now up none i a).calls, c.2 = false := by
      unfold process_one
      cases hr : attachment_reuse now a with
      | some part => simp
      | none =>
        simp only [attachment_status_events, Option.isSome_none, Bool.and_false]
        cases hcv : cv a.path false with
        | error e => simp [hcv]
        | ok fr => cases fr <;> simp [hcv]
    constructor
    · simp [process_attachments, hone.1, ih.1]
    · intro c hc
      simp [process_attachments] at hc
      rcases hc with h | h
      · exact hone.2 c h
      · exact ih.2 c h

/-- C4 counterexample: an `Uploaded` attachment whose handle has a strictly
future expiration but no URI does trigger a call to the conversion/upload
helper (with uploading requested), and yields no reference part. -/
theorem claim_C4_counterexample :
    ((0 : Int) < 10) ∧
    (process_attachments (fun _ _ => Except.error "io") 0
        [⟨"f", AttachmentState.Uploaded ⟨some 10, none, none⟩⟩] true (some 0) 0).calls =
      [("f", true)] ∧
    (process_attachments (fun _ _ => Except.error "io") 0
        [⟨"f", AttachmentState.Uploaded ⟨some 10, none, none⟩⟩] true (some 0) 0).parts =
      [] := by
  refine ⟨by decide, ?_, ?_⟩ <;> rfl

/-- C4 (amended): an `Uploaded` attachment whose remote handle carries a
strictly future expiration and a URI resolves to a reference part with no
helper call and no progress event; one whose expiration is in the past
reaches the helper (a new upload when permitted). -/
theorem claim_C4_attachment_reuse (cv : ConvertFn) (now : Int) (up : Bool)
    (ch : Option Nat) (i : Nat) (path : String) (rf : RemoteFile) :
    (∀ exp uri, rf.expiration_time = some exp → now < exp → rf.uri = some uri →
      process_attachments cv now [⟨path, AttachmentState.Uploaded rf⟩] up ch i =
        ⟨[Part.FileData uri (rf.mime_type.getD "")], [], []⟩) ∧
    (∀ exp, rf.expiration_time = some exp → exp < now →
      (process_attachments cv now [⟨path, AttachmentState.Uploaded rf⟩] up ch i).calls =
        [(path, up && ch.isSome)]) := by
  constructor
  · intro exp uri he hlt hu
    have hd : decide (exp < now) = false := decide_eq_false (by omega)
    simp [process_attachments, process_one, attachment_reuse, he, hu, hd]
  · intro exp he hlt
    have hd : decide (exp < now) = true := decide_eq_true hlt
    have hreuse : attachment_reuse now ⟨path, AttachmentState.Uploaded rf⟩ = none := by
      simp [attachment_reuse, he, hd]
    cases hcv : cv path (up && ch.isSome) with
    | error e => simp [process_attachments, process_one, hreuse, hcv]
    | ok fr =>
      cases fr with
      | InlinePart p => simp [process_attachments, process_one, hreuse, hcv]
      | UploadedFile h => simp [process_attachments, process_one, hreuse, hcv]

/-- C4 witness. -/
theorem claim_C4_attachment_reuse_witness :
    process_attachments (fun _ _ => Except.error "io") 0
        [⟨"f", AttachmentState.Uploaded ⟨some 10, some "uri", some "mime"⟩⟩] true (some 0) 0 =
      ⟨[Part.FileData "uri" "mime"], [], []⟩ ∧
    (process_attachments (fun _ _ => Except.error "io") 5
        [⟨"f", AttachmentState.Uploaded ⟨some 2, some "uri", some "mime"⟩⟩] true (some 0) 0).calls =
      [("f", true)] :=
  ⟨(claim_C4_attachment_reuse (fun _ _ => Except.error "io") 0 true (some 0) 0 "f"
      ⟨some 10, some "uri", some "mime"⟩).1 10 "uri" rfl (by decide) rfl,
   (claim_C4_attachment_reuse (fun _ _ => Except.error "io") 5 true (some 0) 0 "f"
      ⟨some 2, some "uri", some "mime"⟩).2 2 rfl (by decide)⟩

/-- C10: an `Uploaded` attachment whose handle has no expiration instant is
treated as unexpired: with a URI, it resolves to a reference part with no
helper call and no event; without one, it is re-resolved exactly as if it
were still `Pending`. -/
theorem claim_C10_no_expiration (cv : ConvertFn) (now : Int) (up : Bool)
    (ch : Option Nat) (i : Nat) (path : String) (rf : RemoteFile)
    (h : rf.expiration_time = none) :
    (∀ uri, rf.uri = some uri →
      process_attachments cv now [⟨path, AttachmentState.Uploaded rf⟩] up ch i =
        ⟨[Part.FileData uri (rf.mime_type.getD "")], [], []⟩) ∧
    (rf.uri = none →
      process_attachments cv now [⟨path, AttachmentState.Uploaded rf⟩] up ch i =
        process_attachments cv now [⟨path, AttachmentState.Pending⟩] up ch i) := by
  constructor
  · intro uri hu
    simp [process_attachments, process_one, attachment_reuse, h, hu]
  · intro hu
    have h1 : attachment_reuse now ⟨path, AttachmentState.Uploaded rf⟩ = none := by
      simp [attachment_reuse, h, hu]
    have h2 : attachment_reuse now ⟨path, AttachmentState.Pending⟩ = none := by
      simp [attachment_reuse]
    simp only [process_attachments, process_one, h1, h2,
      attachment_status_events_path ch up i ⟨path, AttachmentState.Uploaded rf⟩
        ⟨path, AttachmentState.Pending⟩ rfl]

/-- C10 witness. -/
theorem claim_C10_no_expiration_witness :
    process_attachments (fun _ _ => Except.error "io") 0
        [⟨"f", AttachmentState.Uploaded ⟨none, some "uri", none⟩⟩] true (some 0) 0 =
      ⟨[Part.FileData "uri" ""], [], []⟩ ∧
    process_attachments (fun _ _ => Except.error "io") 0
        [⟨"f", AttachmentState.Uploaded ⟨none, none, none⟩⟩] true (some 0) 0 =
      process_attachments (fun _ _ => Except.error "io") 0
        [⟨"f", AttachmentState.Pending⟩] true (some 0) 0 :=
  ⟨(claim_C10_no_expiration (fun _ _ => Except.error "io") 0 true (some 0) 0 "f"
      ⟨none, some "uri", none⟩ rfl).1 "uri" rfl,
   (claim_C10_no_expiration (fun _ _ => Except.error "io") 0 true (some 0) 0 "f"
      ⟨none, none, none⟩ rfl).2 rfl⟩

/-- C7: the extra (compose-box) turn is resolved with uploading disabled
and no progress sink: its processing emits no event, every helper call it
makes carries `upload = false`, the emitted event stream of
`build_history` is unchanged by the extra turn, and its parts are appended
as a final `User` content block exactly when they are non-empty. -/
theorem claim_C7_extra_turn (cv : ConvertFn) (now : Int) (messages : List Message)
    (text : String) (files : List Attachment) (pub : Bool) (ch : Option Nat) :
    (process_attachments cv now files false none 0).events = [] ∧
    (∀ c ∈ (process_attachments cv now files false none 0).calls, c.2 = false) ∧
    ∃ base, build_history cv now messages none pub ch = Except.ok base ∧
      build_history cv now messages (some (text, files)) pub ch =
        Except.ok
          ⟨base.history ++
            (if (process_attachments cv now files false none 0).parts ++
                (if text ≠ "" then [Part.Text text none] else []) ≠ [] then
              [(⟨some ((process_attachments cv now files false none 0).parts ++
                  (if text ≠ "" then [Part.Text text none] else [])),
                 some Role.User⟩ : Content)]
            else []),
           base.events,
           base.calls ++ (process_attachments cv now files false none 0).calls⟩ := by
  obtain ⟨hev, hcalls⟩ := process_attachments_no_channel cv now files false 0
  refine ⟨hev, hcalls, ⟨_, _, _⟩, rfl, ?_⟩
  show build_history cv now messages (some (text, files)) pub ch = _
  unfold build_history
  simp only [hev, List.append_nil, ite_append_right]

/-- C7 witness. -/
theorem claim_C7_extra_turn_witness :
    (process_attachments (fun _ _ => Except.ok (FileResult.InlinePart Part.Other)) 0
        [⟨"f", AttachmentState.Pending⟩] false none 0).events = [] ∧
    (∀ c ∈ (process_attachments (fun _ _ => Except.ok (FileResult.InlinePart Part.Other)) 0
        [⟨"f", AttachmentState.Pending⟩] false none 0).calls, c.2 = false) ∧
    ∃ base,
      build_history (fun _ _ => Except.ok (FileResult.InlinePart Part.Other)) 0 []
          none true (some 0) = Except.ok base ∧
      build_history (fun _ _ => Except.ok (FileResult.InlinePart Part.Other)) 0 []
          (some ("hi", [⟨"f", AttachmentState.Pending⟩])) true (some 0) =
        Except.ok
          ⟨base.history ++
            (if (process_attachments (fun _ _ => Except.ok (FileResult.InlinePart Part.Other)) 0
                  [⟨"f", AttachmentState.Pending⟩] false none 0).parts ++
                (if ("hi" : String) ≠ "" then [Part.Text "hi" none] else []) ≠ [] then
              [(⟨some ((process_attachments
                    (fun _ _ => Except.ok (FileResult.InlinePart Part.Other)) 0
                    [⟨"f", AttachmentState.Pending⟩] false none 0).parts ++
                  (if ("hi" : String) ≠ "" then [Part.Text "hi" none] else [])),
                 some Role.User⟩ : Content)]
            else []),
           base.events,
           base.calls ++ (process_attachments
              (fun _ _ => Except.ok (FileResult.InlinePart Part.Other)) 0
              [⟨"f", AttachmentState.Pending⟩] false none 0).calls⟩ :=
  claim_C7_extra_turn (fun _ _ => Except.ok (FileResult.InlinePart Part.Other)) 0 []
    "hi" [⟨"f", AttachmentState.Pending⟩] true (some 0)

/-- C8: an attachment whose conversion/upload fails contributes no part:
the built parts are exactly those of the surrounding attachments, the
loop continues past the failure (its status events and its helper call
are still recorded in place), and `build_history` still returns `ok` for
every input. -/
theorem claim_C8_attachment_failure (cv : ConvertFn) (now : Int) (up : Bool)
    (ch : Option Nat) (i : Nat) (pre post : List Attachment) (a : Attachment)
    (e : String) (hreuse : attachment_reuse now a = none)
    (hcv : cv a.path (up && ch.isSome) = Except.error e) :
    (process_attachments cv now (pre ++ a :: post) up ch i).parts =
      (process_attachments cv now pre up ch i).parts ++
        (process_attachments cv now post up ch i).parts ∧
    (process_attachments cv now (pre ++ a :: post) up ch i).events =
      (process_attachments cv now pre up ch i).events ++
        attachment_status_events ch up i a ++
        (process_attachments cv now post up ch i).events ∧
    (process_attachments cv now (pre ++ a :: post) up ch i).calls =
      (process_attachments cv now pre up ch i).calls ++
        [(a.path, up && ch.isSome)] ++
        (process_attachments cv now post up ch i).calls ∧
    ∀ (messages : List Message) (extra : Option (String × List Attachment))
      (pub : Bool) (sc : Option Nat),
      ∃ br, build_history cv now messages extra pub sc = Except.ok br := by
  have hone : process_one cv now up ch i a =
      ⟨[], attachment_status_events ch up i a, [(a.path, up && ch.isSome)]⟩ := by
    unfold process_one
    rw [hreuse]
    simp [hcv]
  rw [process_attachments_append]
  refine ⟨?_, ?_, ?_, fun _ _ _ _ => ⟨_, rfl⟩⟩ <;>
    simp [process_attachments, hone, List.append_assoc]

/-- C8 witness. -/
theorem claim_C8_attachment_failure_witness :
    (attachment_reuse 0 ⟨"bad", AttachmentState.Pending⟩ = none ∧
      (fun (_ : String) (_ : Bool) => Except.error (ε := String) (α := FileResult) "io")
        "bad" (true && (some 0 : Option Nat).isSome) = Except.error "io") ∧
    (process_attachments (fun _ _ => Except.error "io") 0
        ([⟨"ok1", AttachmentState.Uploaded ⟨none, some "u1", none⟩⟩] ++
          ⟨"bad", AttachmentState.Pending⟩ ::
            [⟨"ok2", AttachmentState.Uploaded ⟨none, some "u2", none⟩⟩]) true (some 0) 0).parts =
      (process_attachments (fun _ _ => Except.error "io") 0
          [⟨"ok1", AttachmentState.Uploaded ⟨none, some "u1", none⟩⟩] true (some 0) 0).parts ++
        (process_attachments (fun _ _ => Except.error "io") 0
          [⟨"ok2", AttachmentState.Uploaded ⟨none, some "u2", none⟩⟩] true (some 0) 0).parts := by
  refine ⟨⟨by simp [attachment_reuse], rfl⟩, ?_⟩
  exact (claim_C8_attachment_failure (fun _ _ => Except.error "io") 0 true (some 0) 0
    [⟨"ok1", AttachmentState.Uploaded ⟨none, some "u1", none⟩⟩]
    [⟨"ok2", AttachmentState.Uploaded ⟨none, some "u2", none⟩⟩]
    ⟨"bad", AttachmentState.Pending⟩ "io" (by simp [attachment_reuse]) rfl).1

/-! ## Assembler lemmas -/

theorem updateAt_concat_self (xs : List α) (a : α) (f : α → α) :
    updateAt (xs ++ [a]) xs.length f = xs ++ [f a] := by
  induction xs with
  | nil => rfl
  | cons x rest ih => simp [updateAt, ih]

theorem updateAt_length (l : List α) (n : Nat) (f : α → α) :
    (updateAt l n f).length = l.length := by
  induction l generalizing n with
  | nil => rfl
  | cons x rest ih => cases n <;> simp [updateAt, ih]

theorem updateLast_concat (f : α → α) : ∀ (xs : List α) (a : α),
    updateLast f (xs ++ [a]) = xs ++ [f a]
  | [], _ => rfl
  | [x], _ => rfl
  | x :: y :: ys, a => by
    have ih := updateLast_concat f (y :: ys) a
    simp only [List.cons_append] at ih ⊢
    simp [updateLast, ih]

theorem getLast?_updateLast (f : α → α) : ∀ (l : List α),
    (updateLast f l).getLast? = l.getLast?.map f
  | [] => rfl
  | [a] => rfl
  | a :: b :: rest => by
    have ih := getLast?_updateLast f (b :: rest)
    show (a :: updateLast f (b :: rest)).getLast? = _
    cases hb : updateLast f (b :: rest) with
    | nil =>
      exfalso
      cases rest with
      | nil => simp [updateLast] at hb
      | cons y ys => simp [updateLast] at hb
    | cons c cs =>
      rw [List.getLast?_cons_cons, ← hb, ih, List.getLast?_cons_cons]

/-- C2: against a trailing generating placeholder, a thought part
`"abc"` followed by a non-thought part `"def"` leaves two turns for the
response: the placeholder converted in place into a finalized thought turn
with content `"abc"` (generating flag cleared, generation time recorded),
and a freshly created generating assistant turn with content `"def"`. -/
theorem claim_C2_thought_split (now1 now2 : Nat) (pre : List Message) (ph : Message)
    (hg : ph.is_generating = true) (ht : ph.is_thought = false)
    (hc : ph.content = "") :
    apply_progress now2
      (apply_progress now1 (pre ++ [ph]) pre.length
        (ChatProgress.Part (Part.Text "abc" (some true))))
      pre.length (ChatProgress.Part (Part.Text "def" (some false))) =
    pre ++
      [{ ph with
          is_thought := true
          content := "abc"
          status_message := none
          is_generating := false
          generation_time := some (now2 - ph.requested_at) },
        Message.assistant "def" ph.model now2] := by
  obtain ⟨model, content, role, is_gen, req, gt, ie, fls, ith, us, sm⟩ := ph
  simp only at hg ht hc
  subst hg ht hc
  simp only [apply_progress, updateAt_concat_self, List.getLast?_concat,
    updateLast_concat, Option.getD]
  simp [updateAt_concat_self, updateLast_concat, List.getLast?_concat,
    Message.assistant, List.append_assoc]

/-- C2 witness. -/
theorem claim_C2_thought_split_witness :
    apply_progress 7
      (apply_progress 3 ([] ++ [c2_placeholder]) ([] : List Message).length
        (ChatProgress.Part (Part.Text "abc" (some true))))
      ([] : List Message).length (ChatProgress.Part (Part.Text "def" (some false))) =
    [] ++
      [{ c2_placeholder with
          is_thought := true
          content := "abc"
          status_message := none
          is_generating := false
          generation_time := some (7 - c2_placeholder.requested_at) },
        Message.assistant "def" c2_placeholder.model 7] :=
  claim_C2_thought_split 3 7 [] c2_placeholder rfl rfl rfl

/-- C6: after the terminal handler of every drain, regardless of the
terminal outcome and of the index it targeted, the post-drain guard
leaves the trailing turn not generating; when the handler left it
generating, the guard clears the flag, records the generation time and
clears the status text, and otherwise leaves it untouched. -/
theorem claim_C6_post_drain (now : Nat) (msgs : List Message)
    (result : FlowerResult) (h : msgs ≠ []) :
    ∃ mid_last out_last,
      (finalize_result now msgs result).getLast? = some mid_last ∧
      (poll_finalize now msgs result).getLast? = some out_last ∧
      out_last.is_generating = false ∧
      (mid_last.is_generating = true →
        out_last = { mid_last with
          is_generating := false
          generation_time := some (now - mid_last.requested_at)
          status_message := none }) ∧
      (mid_last.is_generating = false → out_last = mid_last) := by
  have hmidne : finalize_result now msgs result ≠ [] := by
    intro hnil
    apply h
    have : (finalize_result now msgs result).length = msgs.length := by
      cases result with
      | ok idx text usage => exact updateAt_length _ _ _
      | panicked e => exact updateAt_length _ _ _
      | suppose idx e => exact updateAt_length _ _ _
    rw [hnil] at this
    exact List.eq_nil_of_length_eq_zero this.symm
  obtain ⟨mid_last, hmid⟩ := Option.isSome_iff_exists.mp
    (List.getLast?_isSome.mpr hmidne)
  have hout : (poll_finalize now msgs result).getLast? =
      some (if mid_last.is_generating then
        { mid_last with
            is_generating := false
            generation_time := some (now - mid_last.requested_at)
            status_message := none }
      else mid_last) := by
    show (post_drain now (finalize_result now msgs result)).getLast? = _
    unfold post_drain
    rw [getLast?_updateLast, hmid]
    rfl
  refine ⟨mid_last, _, hmid, hout, ?_, ?_, ?_⟩
  · cases hgen : mid_last.is_generating <;> simp [hgen]
  · intro hgen
    simp [hgen]
  · intro hgen
    simp [hgen]

/-- C6 witness. -/
theorem claim_C6_post_drain_witness :
    ∃ mid_last out_last,
      (finalize_result 9 c6_log (FlowerResult.ok 0 "t" (some 5))).getLast? =
        some mid_last ∧
      (poll_finalize 9 c6_log (FlowerResult.ok 0 "t" (some 5))).getLast? =
        some out_last ∧
      out_last.is_generating = false ∧
      (mid_last.is_generating = true →
        out_last = { mid_last with
            is_generating := false
            generation_time := some (9 - mid_last.requested_at)
            status_message := none }) ∧
      (mid_last.is_generating = false → out_last = mid_last) :=
  claim_C6_post_drain 9 c6_log (FlowerResult.ok 0 "t" (some 5)) (by simp [c6_log])

/-! ## Executor lemmas -/

theorem emit_parts_fst (idx : Nat) : ∀ (parts : List Part) (text : String)
    (sent : List (Nat × ChatProgress)),
    (emit_parts idx parts text sent).1 = text ++ parts_text parts := by
  intro parts
  induction parts with
  | nil => intro text sent; simp [emit_parts, parts_text]
  | cons p rest ih =>
    intro text sent
    cases p with
    | Text t th => simp [emit_parts, parts_text, ih, String.append_assoc]
    | FileData u m => simp [emit_parts, parts_text, ih]
    | Other => simp [emit_parts, parts_text, ih]

theorem process_chunk_fst (idx : Nat) (res : GenResponse) (text : String)
    (usage : Option Nat) (sent : List (Nat × ChatProgress)) :
    (process_chunk idx res text usage sent).1 = text ++ chunk_text res := by
  simp only [process_chunk, chunk_text]
  cases hc : res.candidates.head? with
  | none => simp [hc]
  | some candidate =>
    cases hp : candidate.parts with
    | none => simp [hc, hp]
    | some parts => simp [hc, hp, emit_parts_fst]

theorem process_chunk_usage (idx : Nat) (res : GenResponse) (text : String)
    (usage : Option Nat) (sent : List (Nat × ChatProgress)) :
    (process_chunk idx res text usage sent).2.1 =
      (match res.usage_metadata with
       | some u => some u
       | none => usage) := by
  simp only [process_chunk]
  cases hc : res.candidates.head? with
  | none => simp [hc]
  | some candidate => cases hp : candidate.parts <;> simp [hc, hp]

theorem consume_stream_eq (idx : Nat) (flag : Bool) (text : String)
    (usage : Option Nat) (sent : List (Nat × ChatProgress))
    (inputs : List StreamInput) :
    consume_stream idx flag text usage sent inputs =
      match check_cancellation flag with
      | some flag' => ⟨Terminal.success idx text usage, flag', true, sent⟩
      | none =>
        match inputs with
        | [] => ⟨Terminal.success idx text usage, flag, false, sent⟩
        | StreamInput.setFlag :: rest => consume_stream idx true text usage sent rest
        | StreamInput.item res :: rest =>
          let r := process_chunk idx res text usage sent
          consume_stream idx flag r.1 r.2.1 r.2.2 rest
        | StreamInput.itemErr e :: _ => ⟨Terminal.failure idx e, flag, false, sent⟩ := by
  cases flag <;>
    (cases inputs with
      | nil => rfl
      | cons x rest => cases x <;> rfl)

theorem consume_stream_cancel (idx : Nat) : ∀ (pre : List GenResponse)
    (rest : List StreamInput) (text : String) (usage : Option Nat)
    (sent : List (Nat × ChatProgress)),
    (consume_stream idx false text usage sent
        (pre.map StreamInput.item ++ StreamInput.setFlag :: rest)).terminal =
      Terminal.success idx (text ++ chunks_text pre) (chunks_usage usage pre) ∧
    (consume_stream idx false text usage sent
        (pre.map StreamInput.item ++ StreamInput.setFlag :: rest)).cancelled = true ∧
    (consume_stream idx false text usage sent
        (pre.map StreamInput.item ++ StreamInput.setFlag :: rest)).flag = false := by
  intro pre
  induction pre with
  | nil =>
    intro rest text usage sent
    have h2 : consume_stream idx true text usage sent rest =
        ⟨Terminal.success idx text usage, false, true, sent⟩ := by
      rw [consume_stream_eq]
      simp [check_cancellation]
    have h1 : consume_stream idx false text usage sent
        (List.map StreamInput.item [] ++ StreamInput.setFlag :: rest) =
        consume_stream idx true text usage sent rest := by
      rw [consume_stream_eq]
      simp [check_cancellation]
    rw [h1, h2]
    simp [chunks_text, chunks_usage]
  | cons r pre ih =>
    intro rest text usage sent
    have key := ih rest (process_chunk idx r text usage sent).1
      (process_chunk idx r text usage sent).2.1
      (process_chunk idx r text usage sent).2.2
    have hstep : consume_stream idx false text usage sent
        (List.map StreamInput.item (r :: pre) ++ StreamInput.setFlag :: rest) =
        consume_stream idx false (process_chunk idx r text usage sent).1
          (process_chunk idx r text usage sent).2.1
          (process_chunk idx r text usage sent).2.2
          (List.map StreamInput.item pre ++ StreamInput.setFlag :: rest) := by
      conv_lhs => rw [consume_stream_eq]
      simp [check_cancellation]
    rw [hstep]
    refine ⟨?_, key.2.1, key.2.2⟩
    rw [key.1, process_chunk_fst, process_chunk_usage]
    simp [chunks_text, chunks_usage, String.append_assoc]

theorem consume_stream_flag_false (idx : Nat) : ∀ (inputs : List StreamInput)
    (flag : Bool) (text : String) (usage : Option Nat)
    (sent : List (Nat × ChatProgress)),
    (consume_stream idx flag text usage sent inputs).flag = false := by
  intro inputs
  induction inputs with
  | nil => intro flag text usage sent; cases flag <;> rfl
  | cons x rest ih =>
    intro flag text usage sent
    cases flag with
    | true => rfl
    | false =>
      cases x with
      | setFlag => exact ih true text usage sent
      | item r =>
        show (consume_stream idx false _ _ _ _).flag = false
        conv_lhs => rw [consume_stream]
        exact ih false _ _ _
      | itemErr e => rfl

theorem consume_stream_no_cancel (idx : Nat) : ∀ (inputs : List StreamInput)
    (text : String) (usage : Option Nat) (sent : List (Nat × ChatProgress)),
    StreamInput.setFlag ∉ inputs →
    (consume_stream idx false text usage sent inputs).cancelled = false := by
  intro inputs
  induction inputs with
  | nil => intro text usage sent _; rfl
  | cons x rest ih =>
    intro text usage sent hmem
    cases x with
    | setFlag => exact absurd (by simp) hmem
    | item r =>
      show (consume_stream idx false _ _ _ _).cancelled = false
      conv_lhs => rw [consume_stream]
      exact ih _ _ _ (fun hr => hmem (by simp [hr]))
    | itemErr e => rfl

/-- C3: a cancellation observation mid-flight always terminates the
executor with a `Success` terminal (never `Failure`) whose text is
exactly what was accumulated from the items processed strictly before the
observation: while racing the item pulls (both backends), while racing
the stream-open call, and while racing the single blocking call (where
nothing was accumulated yet). -/
theorem claim_C3_cancellation_success :
    (∀ (idx : Nat) (pre : List GenResponse) (rest : List StreamInput),
      (request_completion_streaming idx false (Except.ok ())
          (pre.map StreamInput.item ++ StreamInput.setFlag :: rest)).terminal =
        Terminal.success idx (chunks_text pre) (chunks_usage none pre) ∧
      (request_completion_streaming idx false (Except.ok ())
          (pre.map StreamInput.item ++ StreamInput.setFlag :: rest)).cancelled =
        true) ∧
    (∀ (idx : Nat) (pre : List GenResponse) (rest : List StreamInput),
      (code_assist_streaming idx false (Except.ok ())
          (pre.map StreamInput.item ++ StreamInput.setFlag :: rest)).terminal =
        Terminal.success idx (chunks_text pre) (chunks_usage none pre) ∧
      (code_assist_streaming idx false (Except.ok ())
          (pre.map StreamInput.item ++ StreamInput.setFlag :: rest)).cancelled =
        true) ∧
    (∀ (idx : Nat) (open_result : Except String Unit) (inputs : List StreamInput),
      request_completion_streaming idx true open_result inputs =
        ⟨Terminal.success idx "" none, false, true, []⟩) ∧
    (∀ (idx : Nat) (result : Except String GenResponse),
      request_completion_blocking idx true result =
        ⟨Terminal.success idx "" none, false, true, []⟩) ∧
    (∀ (idx : Nat) (result : Except String GenResponse),
      code_assist_blocking idx true result =
        ⟨Terminal.success idx "" none, false, true, []⟩) := by
  refine ⟨?_, ?_, fun _ _ _ => rfl, fun _ _ => rfl, fun _ _ => rfl⟩
  · intro idx pre rest
    have key := consume_stream_cancel idx pre rest "" none []
    exact ⟨key.1, key.2.1⟩
  · intro idx pre rest
    have key := consume_stream_cancel idx pre rest "" none []
    exact ⟨key.1, key.2.1⟩

/-- C3 witness. -/
theorem claim_C3_cancellation_success_witness :
    (request_completion_streaming 2 false (Except.ok ())
        ([⟨some 11, [⟨some [Part.Text "hel" none, Part.Text "lo" none]⟩]⟩].map
            StreamInput.item ++
          StreamInput.setFlag :: [StreamInput.item ⟨some 99, []⟩])).terminal =
      Terminal.success 2
        (chunks_text [⟨some 11, [⟨some [Part.Text "hel" none, Part.Text "lo" none]⟩]⟩])
        (chunks_usage none
          [⟨some 11, [⟨some [Part.Text "hel" none, Part.Text "lo" none]⟩]⟩]) ∧
    (request_completion_streaming 2 false (Except.ok ())
        ([⟨some 11, [⟨some [Part.Text "hel" none, Part.Text "lo" none]⟩]⟩].map
            StreamInput.item ++
          StreamInput.setFlag :: [StreamInput.item ⟨some 99, []⟩])).cancelled =
      true :=
  claim_C3_cancellation_success.1 2
    [⟨some 11, [⟨some [Part.Text "hel" none, Part.Text "lo" none]⟩]⟩]
    [StreamInput.item ⟨some 99, []⟩]

/-- C9: observing the cancel flag clears it before the operation is
abandoned; every cancellation-terminated invocation therefore ends with
the shared flag `false`, and an invocation that starts with the flag
clear and never sees it set is never spuriously cancelled. -/
theorem claim_C9_flag_cleared :
    check_cancellation true = some false ∧
    (∀ (idx : Nat) (flag0 : Bool) (open_result : Except String Unit)
        (inputs : List StreamInput),
      ((request_completion_streaming idx flag0 open_result inputs).cancelled = true →
        (request_completion_streaming idx flag0 open_result inputs).flag = false) ∧
      ((code_assist_streaming idx flag0 open_result inputs).cancelled = true →
        (code_assist_streaming idx flag0 open_result inputs).flag = false)) ∧
    (∀ (idx : Nat) (flag0 : Bool) (result : Except String GenResponse),
      ((request_completion_blocking idx flag0 result).cancelled = true →
        (request_completion_blocking idx flag0 result).flag = false) ∧
      ((code_assist_blocking idx flag0 result).cancelled = true →
        (code_assist_blocking idx flag0 result).flag = false)) ∧
    (∀ (idx : Nat) (open_result : Except String Unit) (inputs : List StreamInput),
      StreamInput.setFlag ∉ inputs →
      ((request_completion_streaming idx false open_result inputs).cancelled = false ∧
        (code_assist_streaming idx false open_result inputs).cancelled = false)) ∧
    (∀ (idx : Nat) (result : Except String GenResponse),
      (request_completion_blocking idx false result).cancelled = false ∧
      (code_assist_blocking idx false result).cancelled = false) := by
  refine ⟨rfl, ?_, ?_, ?_, ?_⟩
  · intro idx flag0 open_result inputs
    constructor
    · intro h
      cases flag0 with
      | true => rfl
      | false =>
        cases open_result with
        | error e => simp [request_completion_streaming, check_cancellation] at h
        | ok u => exact consume_stream_flag_false idx inputs false "" none []
    · intro h
      cases open_result with
      | error e => simp [code_assist_streaming] at h
      | ok u => exact consume_stream_flag_false idx inputs flag0 "" none []
  · intro idx flag0 result
    constructor
    · intro h
      cases flag0 with
      | true => rfl
      | false =>
        cases result with
        | error e => simp [request_completion_blocking, check_cancellation] at h
        | ok r => simp [request_completion_blocking, check_cancellation] at h
    · intro h
      cases flag0 with
      | true => rfl
      | false =>
        cases result with
        | error e =>
          simp [code_assist_blocking, request_completion_blocking,
            check_cancellation] at h
        | ok r =>
          simp [code_assist_blocking, request_completion_blocking,
            check_cancellation] at h
  · intro idx open_result inputs hmem
    constructor
    · cases open_result with
      | error e => rfl
      | ok u => exact consume_stream_no_cancel idx inputs "" none [] hmem
    · cases open_result with
      | error e => rfl
      | ok u => exact consume_stream_no_cancel idx inputs "" none [] hmem
  · intro idx result
    cases result with
    | error e => exact ⟨rfl, rfl⟩
    | ok r => exact ⟨rfl, rfl⟩

/-- C9 witness. -/
theorem claim_C9_flag_cleared_witness :
    check_cancellation true = some false ∧
    ((request_completion_streaming 0 false (Except.ok ())
        [StreamInput.setFlag]).cancelled = true →
      (request_completion_streaming 0 false (Except.ok ())
        [StreamInput.setFlag]).flag = false) ∧
    ((request_completion_streaming 0 false (Except.ok ())
        [StreamInput.item ⟨none, []⟩]).cancelled = false ∧
      (code_assist_streaming 0 false (Except.ok ())
        [StreamInput.item ⟨none, []⟩]).cancelled = false) :=
  ⟨claim_C9_flag_cleared.1,
   (claim_C9_flag_cleared.2.1 0 false (Except.ok ()) [StreamInput.setFlag]).1,
   claim_C9_flag_cleared.2.2.2.1 0 (Except.ok ()) [StreamInput.item ⟨none, []⟩]
     (by simp)⟩

/-! ## Diagnosis lemmas -/

theorem isPrefixOf_append {α : Type _} [BEq α] : ∀ (pat a b : List α),
    pat.isPrefixOf a = true → pat.isPrefixOf (a ++ b) = true
  | [], _, _, _ => by simp [List.isPrefixOf]
  | p :: ps, [], _, h => Bool.noConfusion h
  | p :: ps, q :: qs, b, h => by
    simp only [List.isPrefixOf, Bool.and_eq_true] at h
    simp only [List.cons_append, List.isPrefixOf, Bool.and_eq_true]
    exact ⟨h.1, isPrefixOf_append ps qs b h.2⟩

theorem findSub_append_left : ∀ (a b pat : List Char),
    (findSub a pat).isSome = true → (findSub (a ++ b) pat).isSome = true := by
  intro a
  induction a with
  | nil =>
    intro b pat h
    have hp : pat.isPrefixOf [] = true := by
      by_contra hp
      unfold findSub at h
      rw [if_neg hp] at h
      cases h
    have hpat : pat = [] := by
      cases pat with
      | nil => rfl
      | cons p ps => exact Bool.noConfusion hp
    subst hpat
    unfold findSub
    rw [if_pos (by simp [List.isPrefixOf])]
    rfl
  | cons c a ih =>
    intro b pat h
    unfold findSub at h ⊢
    by_cases hp : pat.isPrefixOf (c :: a) = true
    · rw [if_pos (isPrefixOf_append pat (c :: a) b hp)]
      rfl
    · rw [if_neg hp] at h
      replace h : (Option.map (fun i => i + 1) (findSub a pat)).isSome = true := h
      have h' : (findSub a pat).isSome = true := by
        cases hfa : findSub a pat with
        | none => rw [hfa] at h; cases h
        | some v => rfl
      have hb := ih b pat h'
      by_cases hp2 : pat.isPrefixOf ((c :: a) ++ b) = true
      · rw [if_pos hp2]; rfl
      · rw [if_neg hp2]
        show (Option.map (fun i => i + 1) (findSub (a ++ b) pat)).isSome = true
        cases hfb : findSub (a ++ b) pat with
        | none => rw [hfb] at hb; cases hb
        | some v => rfl

theorem containsSub_append_of_left (a b pat : String)
    (h : containsSub a pat = true) : containsSub (a ++ b) pat = true := by
  unfold containsSub at h ⊢
  have : (a ++ b).toList = a.toList ++ b.toList := String.data_append a b
  rw [this]
  exact findSub_append_left a.toList b.toList pat.toList h

theorem diagnose_status (msg : String) (json err_obj : Json) (S : String)
    (hpt : parsed_target msg = some json)
    (herr : getField json "error" = some err_obj)
    (hst : getField err_obj "status" = some (Json.str S)) :
    diagnose msg =
      status_text ((Option.bind (getField err_obj "code") Json.as_i64).getD 0) S
        ((Option.bind (getField err_obj "message") Json.as_str).getD "No message") := by
  unfold diagnose
  cases hec : extract_candidate msg with
  | none =>
    have : parsed_target msg = none := by simp [parsed_target, hec]
    rw [this] at hpt
    cases hpt
  | some c =>
    simp only [hpt, herr, hst]
    simp [Json.as_str]

/-- C5 (amended): whenever the brace-delimited candidate (first `{` through
last `}`) of the raw failure text parses - literally or after unescaping -
to a JSON value whose `error` object carries status `RESOURCE_EXHAUSTED`,
the diagnosis contains the literal phrase "Quota Exhausted"; the other
known statuses map to their templated phrases, a structured value without
an `error` key is pretty-printed, and text containing no opening brace is
shown verbatim. -/
theorem claim_C5_error_diagnosis :
    (∀ (msg : String) (json err_obj : Json),
      parsed_target msg = some json →
      getField json "error" = some err_obj →
      getField err_obj "status" = some (Json.str "RESOURCE_EXHAUSTED") →
      containsSub (diagnose msg) "Quota Exhausted" = true) ∧
    (∀ (msg : String) (json err_obj : Json),
      parsed_target msg = some json →
      getField json "error" = some err_obj →
      getField err_obj "status" = some (Json.str "NOT_FOUND") →
      containsSub (diagnose msg) "Model Not Found" = true) ∧
    (∀ (msg : String) (json err_obj : Json),
      parsed_target msg = some json →
      getField json "error" = some err_obj →
      getField err_obj "status" = some (Json.str "PERMISSION_DENIED") →
      containsSub (diagnose msg) "Permission Denied" = true) ∧
    (∀ (msg : String) (json err_obj : Json),
      parsed_target msg = some json →
      getField json "error" = some err_obj →
      getField err_obj "status" = some (Json.str "INVALID_ARGUMENT") →
      containsSub (diagnose msg) "Invalid Request" = true) ∧
    (∀ (msg : String) (json : Json),
      parsed_target msg = some json →
      getField json "error" = none →
      diagnose msg = pretty_top (msg.toList.length + 1) json) ∧
    (∀ msg : String, findChar msg.toList '{' = none → diagnose msg = msg) := by
  refine ⟨?_, ?_, ?_, ?_, ?_, ?_⟩
  · intro msg json err_obj hpt herr hst
    rw [diagnose_status msg json err_obj _ hpt herr hst]
    rw [show ∀ code m, status_text code "RESOURCE_EXHAUSTED" m =
      quota_exhausted_text m from fun _ _ => rfl]
    unfold quota_exhausted_text
    cases hf : findSub ((Option.bind (getField err_obj "message")
        Json.as_str).getD "No message").toList "retry in ".toList with
    | none =>
      simp only [hf]
      exact containsSub_append_of_left _ _ _ (by decide)
    | some pos =>
      simp only [hf]
      exact containsSub_append_of_left _ _ _ (by decide)
  · intro msg json err_obj hpt herr hst
    rw [diagnose_status msg json err_obj _ hpt herr hst]
    exact containsSub_append_of_left _ _ _ (by decide)
  · intro msg json err_obj hpt herr hst
    rw [diagnose_status msg json err_obj _ hpt herr hst]
    exact containsSub_append_of_left _ _ _ (by decide)
  · intro msg json err_obj hpt herr hst
    rw [diagnose_status msg json err_obj _ hpt herr hst]
    exact containsSub_append_of_left _ _ _ (by decide)
  · intro msg json hpt hnone
    unfold diagnose
    cases hec : extract_candidate msg with
    | none =>
      have : parsed_target msg = none := by simp [parsed_target, hec]
      rw [this] at hpt
      cases hpt
    | some c => simp [hpt, hnone]
  · intro msg h
    unfold diagnose extract_candidate
    rw [h]

/-- C5 counterexample: raw text that does contain an escaped JSON error
object with status `RESOURCE_EXHAUSTED` (conjuncts 1-2), but on which the
first-brace/last-brace extraction grabs a stray earlier brace, parsing
fails, and the diagnosis shows the text verbatim with no "Quota Exhausted"
phrase. -/
theorem claim_C5_counterexample :
    containsSub c5_stray c5_segment = true ∧
    ((parse_json (String.mk (unescape_candidate c5_segment.toList))).bind
        (fun j => getField j "error")).bind (fun e => getField e "status") =
      some (Json.str "RESOURCE_EXHAUSTED") ∧
    diagnose c5_stray = c5_stray ∧
    containsSub (diagnose c5_stray) "Quota Exhausted" = false := by
  refine ⟨by decide, rfl, rfl, by decide⟩

/-- C5 witness. -/
theorem claim_C5_error_diagnosis_witness :
    containsSub (diagnose c5_raw) "Quota Exhausted" = true :=
  claim_C5_error_diagnosis.1 c5_raw c5_json c5_error_obj rfl rfl rfl

/-! ## Merging lemmas (C1) -/

theorem isEmpty_false_of_ne (s : String) (h : s ≠ "") : s.isEmpty = false := by
  cases hs : s.isEmpty with
  | false => rfl
  | true => exact absurd ((String.isEmpty_iff s).mp hs) h

theorem msg_parts_ne_nil (cv : ConvertFn) (now : Int) (pub : Bool)
    (ch : Option Nat) (m : Message) (h : m.content ≠ "") :
    msg_parts cv now pub ch m ≠ [] := by
  intro hc
  unfold msg_parts at hc
  rcases List.append_eq_nil.mp hc with ⟨-, h2⟩
  rw [if_pos h] at h2
  cases h2

theorem mergeRuns_cons (r : Role) (ps : List Part) (L : List (Role × List Part)) :
    mergeRuns ((r, ps) :: L) =
      (match mergeRuns L with
       | [] => [(r, ps)]
       | (r2, ps2) :: tail =>
         if r = r2 then (r, ps ++ ps2) :: tail
         else (r, ps) :: (r2, ps2) :: tail) := rfl

theorem mergeRuns_head (r : Role) (ps : List Part) (L : List (Role × List Part)) :
    ∃ qs tail, mergeRuns ((r, ps) :: L) = (r, qs) :: tail := by
  rw [mergeRuns_cons]
  cases mergeRuns L with
  | nil => exact ⟨ps, [], rfl⟩
  | cons hd tail =>
    obtain ⟨r2, ps2⟩ := hd
    by_cases hr : r = r2
    · subst hr
      exact ⟨ps ++ ps2, tail, by simp⟩
    · exact ⟨ps, (r2, ps2) :: tail, by simp [hr]⟩

theorem mergeRuns_cons_cons_same (r : Role) (a b : List Part)
    (L : List (Role × List Part)) :
    mergeRuns ((r, a) :: (r, b) :: L) = mergeRuns ((r, a ++ b) :: L) := by
  rw [mergeRuns_cons r a ((r, b) :: L), mergeRuns_cons r b L,
    mergeRuns_cons r (a ++ b) L]
  cases mergeRuns L with
  | nil => simp
  | cons hd tail =>
    obtain ⟨r2, ps2⟩ := hd
    by_cases hr : r = r2
    · subst hr
      simp [List.append_assoc]
    · simp [hr]

theorem mergeRuns_cons_ne (r r2 : Role) (ps ps2 : List Part)
    (L : List (Role × List Part)) (h : r ≠ r2) :
    mergeRuns ((r, ps) :: (r2, ps2) :: L) =
      (r, ps) :: mergeRuns ((r2, ps2) :: L) := by
  obtain ⟨qs, tail, heq⟩ := mergeRuns_head r2 ps2 L
  rw [mergeRuns_cons r ps ((r2, ps2) :: L), heq]
  simp [h]

theorem runs_of_cons_skip (cv : ConvertFn) (now : Int) (pub : Bool)
    (ch : Option Nat) (m : Message) (rest : List Message)
    (h : skip_message m = true) :
    runs_of cv now pub ch (m :: rest) = runs_of cv now pub ch rest := by
  simp [runs_of, List.filter_cons, h]

theorem runs_of_cons_keep (cv : ConvertFn) (now : Int) (pub : Bool)
    (ch : Option Nat) (m : Message) (rest : List Message)
    (h : skip_message m = false) :
    runs_of cv now pub ch (m :: rest) =
      (roleOf m.role, msg_parts cv now pub ch m) :: runs_of cv now pub ch rest := by
  simp [runs_of, List.filter_cons, h]

theorem build_step_skip (cv : ConvertFn) (now : Int) (pub : Bool)
    (ch : Option Nat) (i : Nat) (m : Message) (st : BuildState)
    (h : skip_message m = true) :
    build_step cv now pub ch i m st = st := by
  simp [build_step, h]

theorem build_step_keep_parts (cv : ConvertFn) (now : Int) (pub : Bool)
    (ch : Option Nat) (i : Nat) (m : Message) :
    (process_attachments cv now m.files pub ch i).parts ++
        (if m.content ≠ "" then [Part.Text m.content none] else []) =
      msg_parts cv now pub ch m := by
  unfold msg_parts
  rw [process_attachments_parts_idx cv now pub ch m.files i 0]

theorem build_step_same (cv : ConvertFn) (now : Int) (pub : Bool)
    (ch : Option Nat) (i : Nat) (m : Message) (st : BuildState)
    (h : skip_message m = false) (har : st.active_role = some (roleOf m.role)) :
    build_step cv now pub ch i m st =
      { st with
        parts_buffer := st.parts_buffer ++ msg_parts cv now pub ch m
        events := st.events ++ (process_attachments cv now m.files pub ch i).events
        calls := st.calls ++ (process_attachments cv now m.files pub ch i).calls } := by
  rw [← build_step_keep_parts cv now pub ch i m]
  by_cases hc : m.content ≠ "" <;>
    simp [build_step, h, har, hc, List.append_assoc]

theorem build_step_diff (cv : ConvertFn) (now : Int) (pub : Bool)
    (ch : Option Nat) (i : Nat) (m : Message) (st : BuildState) (r : Role)
    (h : skip_message m = false) (har : st.active_role = some r)
    (hne : r ≠ roleOf m.role) (hbuf : st.parts_buffer ≠ []) :
    build_step cv now pub ch i m st =
      { history := st.history ++ [run_block (r, st.parts_buffer)]
        parts_buffer := msg_parts cv now pub ch m
        active_role := some (roleOf m.role)
        events := st.events ++ (process_attachments cv now m.files pub ch i).events
        calls := st.calls ++ (process_attachments cv now m.files pub ch i).calls } := by
  rw [← build_step_keep_parts cv now pub ch i m]
  by_cases hc : m.content ≠ "" <;>
    simp [build_step, h, har, hne, hbuf, hc, run_block, List.append_assoc]

theorem build_step_none (cv : ConvertFn) (now : Int) (pub : Bool)
    (ch : Option Nat) (i : Nat) (m : Message) (st : BuildState)
    (h : skip_message m = false) (har : st.active_role = none) :
    build_step cv now pub ch i m st =
      { st with
        parts_buffer := st.parts_buffer ++ msg_parts cv now pub ch m
        active_role := some (roleOf m.role)
        events := st.events ++ (process_attachments cv now m.files pub ch i).events
        calls := st.calls ++ (process_attachments cv now m.files pub ch i).calls } := by
  rw [← build_step_keep_parts cv now pub ch i m]
  by_cases hc : m.content ≠ "" <;>
    simp [build_step, h, har, hc, List.append_assoc]

theorem build_loop_close (cv : ConvertFn) (now : Int) (pub : Bool)
    (ch : Option Nat) : ∀ (msgs : List Message) (i : Nat) (hist : List Content)
    (buf : List Part) (r : Role) (ev : List (Nat × ChatProgress))
    (cs : List (String × Bool)),
    (∀ m ∈ msgs, m.content ≠ "") → buf ≠ [] →
    close_state (build_loop cv now pub ch i msgs ⟨hist, buf, some r, ev, cs⟩) =
      hist ++ (mergeRuns ((r, buf) :: runs_of cv now pub ch msgs)).map run_block := by
  intro msgs
  induction msgs with
  | nil =>
    intro i hist buf r ev cs _ hbuf
    simp [build_loop, close_state, hbuf, runs_of, mergeRuns, run_block]
  | cons m rest ih =>
    intro i hist buf r ev cs hall hbuf
    have hm : m.content ≠ "" := hall m (by simp)
    have hrest : ∀ m' ∈ rest, m'.content ≠ "" := fun m' h' => hall m' (by simp [h'])
    show close_state (build_loop cv now pub ch (i + 1) rest
      (build_step cv now pub ch i m ⟨hist, buf, some r, ev, cs⟩)) = _
    cases hsk : skip_message m with
    | true =>
      rw [build_step_skip cv now pub ch i m _ hsk,
        ih (i + 1) hist buf r ev cs hrest hbuf,
        runs_of_cons_skip cv now pub ch m rest hsk]
    | false =>
      by_cases hrole : roleOf m.role = r
      · rw [build_step_same cv now pub ch i m _ hsk (by simp [hrole])]
        rw [ih (i + 1) hist (buf ++ msg_parts cv now pub ch m) r _ _ hrest
          (fun hcontra => hbuf (List.append_eq_nil.mp hcontra).1)]
        rw [runs_of_cons_keep cv now pub ch m rest hsk, hrole,
          mergeRuns_cons_cons_same]
      · rw [build_step_diff cv now pub ch i m _ r hsk rfl
          (fun he => hrole he.symm) hbuf]
        rw [ih (i + 1) (hist ++ [run_block (r, buf)])
          (msg_parts cv now pub ch m) (roleOf m.role) _ _ hrest
          (msg_parts_ne_nil cv now pub ch m hm)]
        rw [runs_of_cons_keep cv now pub ch m rest hsk,
          mergeRuns_cons_ne r (roleOf m.role) buf (msg_parts cv now pub ch m) _
            (fun he => hrole he.symm)]
        simp [List.append_assoc]

theorem build_loop_start (cv : ConvertFn) (now : Int) (pub : Bool)
    (ch : Option Nat) : ∀ (msgs : List Message) (i : Nat) (hist : List Content)
    (ev : List (Nat × ChatProgress)) (cs : List (String × Bool)),
    (∀ m ∈ msgs, m.content ≠ "") →
    close_state (build_loop cv now pub ch i msgs ⟨hist, [], none, ev, cs⟩) =
      hist ++ (mergeRuns (runs_of cv now pub ch msgs)).map run_block := by
  intro msgs
  induction msgs with
  | nil =>
    intro i hist ev cs _
    simp [build_loop, close_state, runs_of, mergeRuns]
  | cons m rest ih =>
    intro i hist ev cs hall
    have hm : m.content ≠ "" := hall m (by simp)
    have hrest : ∀ m' ∈ rest, m'.content ≠ "" := fun m' h' => hall m' (by simp [h'])
    show close_state (build_loop cv now pub ch (i + 1) rest
      (build_step cv now pub ch i m ⟨hist, [], none, ev, cs⟩)) = _
    cases hsk : skip_message m with
    | true =>
      rw [build_step_skip cv now pub ch i m _ hsk, ih (i + 1) hist ev cs hrest,
        runs_of_cons_skip cv now pub ch m rest hsk]
    | false =>
      rw [build_step_none cv now pub ch i m _ hsk rfl]
      simp only [List.nil_append]
      rw [build_loop_close cv now pub ch rest (i + 1) hist
        (msg_parts cv now pub ch m) (roleOf m.role) _ _ hrest
        (msg_parts_ne_nil cv now pub ch m hm)]
      rw [runs_of_cons_keep cv now pub ch m rest hsk]

theorem build_history_closes (cv : ConvertFn) (now : Int) (msgs : List Message)
    (pub : Bool) (ch : Option Nat) :
    build_history cv now msgs none pub ch =
      Except.ok
        ⟨close_state (build_loop cv now pub ch 0 msgs ⟨[], [], none, [], []⟩),
         (match ch with
          | some index =>
            (build_loop cv now pub ch 0 msgs ⟨[], [], none, [], []⟩).events ++
              [(index, ChatProgress.Status "")]
          | none => (build_loop cv now pub ch 0 msgs ⟨[], [], none, [], []⟩).events),
         (build_loop cv now pub ch 0 msgs ⟨[], [], none, [], []⟩).calls⟩ := by
  cases ch <;> rfl

/-- C1 counterexample: a `[User, User, Assistant, User]` conversation
whose User turns `u1`, `u2` are non-empty only through attachments
(file-only turns, not skipped by `skip_message`) and whose conversions
fail produces 2 content blocks, not 3 — and the first block is the
Assistant block, not a User block: the accumulator is empty at the
User→Assistant role change, so no block is flushed there. -/
theorem claim_C1_counterexample :
    (skip_message (c1_file_user "f1") = false ∧
      skip_message (c1_file_user "f2") = false ∧
      skip_message c1_a3 = false ∧ skip_message c1_u4 = false) ∧
    ((c1_file_user "f1").role = MessageRole.User ∧
      (c1_file_user "f2").role = MessageRole.User ∧
      c1_a3.role = MessageRole.Assistant ∧ c1_u4.role = MessageRole.User) ∧
    build_history (fun _ _ => Except.error "io") 0
        [c1_file_user "f1", c1_file_user "f2", c1_a3, c1_u4] none false none =
      Except.ok
        ⟨[⟨some [Part.Text "c" none], some Role.Model⟩,
          ⟨some [Part.Text "d" none], some Role.User⟩],
         [], [("f1", false), ("f2", false)]⟩ := by
  refine ⟨⟨?_, ?_, ?_, ?_⟩, ⟨rfl, rfl, rfl, rfl⟩, ?_⟩ <;> rfl

/-- C1 (amended): for turns that all carry non-empty text, `build_history`
merges consecutive kept turns of equal role into single content blocks
(role changes flush the then non-empty accumulator), so that the history
is exactly the role-run merge of the kept turns; in particular a
`[User, User, Assistant, User]` conversation of such turns yields exactly
3 blocks, the first carrying both User turns' parts in order.  (A
non-skipped file-only turn whose attachments resolve to zero parts leaves
the accumulator empty, and an empty accumulator flushes no block.) -/
theorem claim_C1_history_merging :
    (∀ (cv : ConvertFn) (now : Int) (pub : Bool) (ch : Option Nat)
        (msgs : List Message),
      (∀ m ∈ msgs, m.content ≠ "") →
      ∃ ev cs, build_history cv now msgs none pub ch =
        Except.ok
          ⟨(mergeRuns (runs_of cv now pub ch msgs)).map run_block, ev, cs⟩) ∧
    (∀ (cv : ConvertFn) (now : Int) (pub : Bool) (ch : Option Nat)
        (u1 u2 a3 u4 : Message),
      u1.role = MessageRole.User → u2.role = MessageRole.User →
      a3.role = MessageRole.Assistant → u4.role = MessageRole.User →
      u1.is_thought = false → u2.is_thought = false →
      a3.is_thought = false → u4.is_thought = false →
      u1.content ≠ "" → u2.content ≠ "" → a3.content ≠ "" → u4.content ≠ "" →
      ∃ ev cs, build_history cv now [u1, u2, a3, u4] none pub ch =
        Except.ok
          ⟨[⟨some (msg_parts cv now pub ch u1 ++ msg_parts cv now pub ch u2),
              some Role.User⟩,
            ⟨some (msg_parts cv now pub ch a3), some Role.Model⟩,
            ⟨some (msg_parts cv now pub ch u4), some Role.User⟩], ev, cs⟩) := by
  have main : ∀ (cv : ConvertFn) (now : Int) (pub : Bool) (ch : Option Nat)
      (msgs : List Message), (∀ m ∈ msgs, m.content ≠ "") →
      ∃ ev cs, build_history cv now msgs none pub ch =
        Except.ok
          ⟨(mergeRuns (runs_of cv now pub ch msgs)).map run_block, ev, cs⟩ := by
    intro cv now pub ch msgs hall
    refine ⟨(match ch with
      | some index =>
        (build_loop cv now pub ch 0 msgs ⟨[], [], none, [], []⟩).events ++
          [(index, ChatProgress.Status "")]
      | none => (build_loop cv now pub ch 0 msgs ⟨[], [], none, [], []⟩).events),
      (build_loop cv now pub ch 0 msgs ⟨[], [], none, [], []⟩).calls, ?_⟩
    rw [build_history_closes cv now msgs pub ch,
      build_loop_start cv now pub ch msgs 0 [] [] [] hall]
    rw [List.nil_append]
  refine ⟨main, ?_⟩
  intro cv now pub ch u1 u2 a3 u4 hr1 hr2 hr3 hr4 ht1 ht2 ht3 ht4 hc1 hc2 hc3 hc4
  obtain ⟨ev, cs, heq⟩ := main cv now pub ch [u1, u2, a3, u4]
    (by
      intro m hm
      simp only [List.mem_cons, List.not_mem_nil, or_false] at hm
      rcases hm with rfl | rfl | rfl | rfl <;> assumption)
  refine ⟨ev, cs, ?_⟩
  rw [heq]
  have hsk : ∀ m : Message, m.is_thought = false → m.content ≠ "" →
      skip_message m = false := by
    intro m hth hc
    simp [skip_message, hth, isEmpty_false_of_ne m.content hc]
  simp only [runs_of_cons_keep cv now pub ch _ _ (hsk u1 ht1 hc1),
    runs_of_cons_keep cv now pub ch _ _ (hsk u2 ht2 hc2),
    runs_of_cons_keep cv now pub ch _ _ (hsk a3 ht3 hc3),
    runs_of_cons_keep cv now pub ch _ _ (hsk u4 ht4 hc4),
    hr1, hr2, hr3, hr4]
  rw [show runs_of cv now pub ch [] = [] from rfl]
  simp [mergeRuns, run_block, roleOf]

/-- C1 witness. -/
theorem claim_C1_history_merging_witness :
    ∃ ev cs,
      build_history (fun _ _ => Except.error "io") 0
          [{ c2_placeholder with role := MessageRole.User, content := "a" },
           { c2_placeholder with role := MessageRole.User, content := "b" },
           { c2_placeholder with role := MessageRole.Assistant, content := "c" },
           { c2_placeholder with role := MessageRole.User, content := "d" }]
          none false none =
        Except.ok
          ⟨[⟨some (msg_parts (fun _ _ => Except.error "io") 0 false none
                { c2_placeholder with role := MessageRole.User, content := "a" } ++
              msg_parts (fun _ _ => Except.error "io") 0 false none
                { c2_placeholder with role := MessageRole.User, content := "b" }),
              some Role.User⟩,
            ⟨some (msg_parts (fun _ _ => Except.error "io") 0 false none
                { c2_placeholder with role := MessageRole.Assistant, content := "c" }),
              some Role.Model⟩,
            ⟨some (msg_parts (fun _ _ => Except.error "io") 0 false none
                { c2_placeholder with role := MessageRole.User, content := "d" }),
              some Role.User⟩], ev, cs⟩ :=
  claim_C1_history_merging.2 (fun _ _ => Except.error "io") 0 false none
    _ _ _ _ rfl rfl rfl rfl rfl rfl rfl rfl
    (by decide) (by decide) (by decide) (by decide)

end Geminid
